import Mathlib

/-!
# users-service: the `svc` package (`pkg/svc/users.go`)

A shallow embedding of the request handlers of `UsersServer` and of the helpers they call,
followed by the properties established about them.

Conventions of the embedding

* The database handle `s.cfg.Database` is the value `DB`: the rows of the `users` table, the
  journal of the store accesses issued so far, and a fault plan telling which store access is
  answered with an error other than `gorm.ErrRecordNotFound`.  Every handler takes the `DB` it
  starts from and returns its reply together with the `DB` it leaves.
* Library functions the handlers call (SHA-256 with hex encoding, the Unicode tables beyond
  ASCII, the RSA signer, the generated list helper, the raw stats query) are parameters.
* `uuid.NewV4()` and `time.Now()` are inputs of the handler that calls them, one input per call.
-/

namespace Svc

/-! ## Status codes and errors -/

/-- The gRPC status codes the handlers use (`google.golang.org/grpc/codes`). -/
inductive Code where
  | InvalidArgument
  | Unauthenticated
  | Internal
  | NotFound
  | Unimplemented
  deriving DecidableEq, Repr

/-- The value built by `status.Error(code, msg)`. -/
structure Status where
  code : Code
  msg : String
  deriving DecidableEq, Repr

/-- Errors of the store: `gorm.ErrRecordNotFound`, or any other error. -/
inductive GormError where
  | ErrRecordNotFound
  | other
  deriving DecidableEq, Repr

/-! ## Records -/

/-- Modelled from the spec: `pb.UserStats` is generated code outside `pkg/svc`; the fields are
the four that `List` scans into. -/
structure UserStats where
  Games : Int
  Wins : Int
  Top5 : Int
  Kills : Int
  deriving DecidableEq, Repr

/-- Modelled from the spec: `pb.User` is generated code outside `pkg/svc`; the fields are the
ones the handlers read or write. -/
structure User where
  Id : String
  Name : String
  Email : String
  Password : String
  Stats : Option UserStats
  Coins : Int
  Gems : Int
  deriving DecidableEq, Repr

/-- Modelled from the spec: `pb.UserORM` is generated code outside `pkg/svc`; the fields are the
ones of the literal in `Create`. -/
structure UserORM where
  Id : String
  Email : String
  Name : String
  Password : String
  Stats : Option UserStats
  Coins : Int
  Gems : Int
  deriving DecidableEq, Repr

/-- Modelled from the spec: `UserORM.ToPB` is generated code outside `pkg/svc`; it copies the
record field by field (it can only fail through user hooks, of which the package has none). -/
def UserORM.ToPB (u : UserORM) : User :=
  { Id := u.Id, Name := u.Name, Email := u.Email, Password := u.Password,
    Stats := u.Stats, Coins := u.Coins, Gems := u.Gems }

/-- A stored account: the columns of `UserORM` in the `users` table, with the record of the
`user_stats` table that belongs to it in `orm.Stats`, and the `is_admin` column that
`adminQuery` selects. -/
structure UserRow where
  orm : UserORM
  is_admin : Bool
  deriving DecidableEq, Repr

/-- What `First(&existingUser)` scans from a row into the record: the columns of the `users`
table.  The `Stats` association lives in the `user_stats` table and is loaded only by a
`Preload`, which no lookup of the package requests, so the field stays nil. -/
def UserRow.scan (r : UserRow) : UserORM :=
  { r.orm with Stats := none }

/-- Strict lexicographic order on texts, code point by code point: the order in which the store
compares primary keys. -/
def strLt : List Char → List Char → Bool
  | _, [] => false
  | [], _ :: _ => true
  | a :: as, b :: bs =>
    if a.toNat < b.toNat then true
    else if b.toNat < a.toNat then false
    else strLt as bs

/-! ## Credential policy -/

/-- The tables of Go package `unicode` beyond ASCII (categories N, Lu and L), taken as given.
Every code point has one general category, so an uppercase letter is a letter and a number is
not a letter. -/
structure UnicodeTables where
  number : Char → Bool
  upper : Char → Bool
  letter : Char → Bool
  upper_letter : ∀ c, upper c = true → letter c = true
  number_letter : ∀ c, number c = true → letter c = false

/-- Tables in which no code point beyond ASCII is a number or a letter. -/
def UnicodeTables.ascii : UnicodeTables :=
  { number := fun _ => false, upper := fun _ => false, letter := fun _ => false,
    upper_letter := by intro c h; exact h,
    number_letter := by intro c _; rfl }

/-- Go `unicode.IsNumber`: in ASCII exactly `0`..`9`. -/
def IsNumber (U : UnicodeTables) (c : Char) : Bool :=
  if c.toNat < 128 then c.isDigit else U.number c

/-- Go `unicode.IsUpper`: in ASCII exactly `A`..`Z`. -/
def IsUpper (U : UnicodeTables) (c : Char) : Bool :=
  if c.toNat < 128 then c.isUpper else U.upper c

/-- Go `unicode.IsLetter`: in ASCII exactly `A`..`Z` and `a`..`z`. -/
def IsLetter (U : UnicodeTables) (c : Char) : Bool :=
  if c.toNat < 128 then c.isAlpha else U.letter c

/-- The `for _, c := range s` loop of `verifyPassword`, carrying `letters`, `number` and
`upper`; `none` is the early `return false, false, false` of the `default` case. -/
def verifyPasswordLoop (U : UnicodeTables) :
    List Char → Nat → Bool → Bool → Option (Nat × Bool × Bool)
  | [], letters, number, upper => some (letters, number, upper)
  | c :: cs, letters, number, upper =>
    if IsNumber U c then verifyPasswordLoop U cs (letters + 1) true upper
    else if IsUpper U c then verifyPasswordLoop U cs (letters + 1) number true
    else if IsLetter U c || c == ' ' then verifyPasswordLoop U cs (letters + 1) number upper
    else none

/-- `verifyPassword(s) (eightOrMore, number, upper bool)`. -/
def verifyPassword (U : UnicodeTables) (s : String) : Bool × Bool × Bool :=
  match verifyPasswordLoop U s.toList 0 false false with
  | none => (false, false, false)
  | some (letters, number, upper) => (decide (letters ≥ 8), number, upper)

/-- `regexpName.MatchString`, for `^[a-zA-Z]{1}[a-zA-Z0-9]+$`: one ASCII letter, then one or
more ASCII letters or digits, up to the end of the text. -/
def regexpNameMatch (s : String) : Bool :=
  match s.toList with
  | [] => false
  | c :: cs => c.isAlpha && !cs.isEmpty && cs.all Char.isAlphanum

/-- The character class of the local part of `regexpEmail`: ASCII letters, digits and the code
points of `. ! # $ % & ' * + / = ? ^ _` , the grave accent, and of the braces, bar, tilde, hyphen. -/
def emailLocalChar (c : Char) : Bool :=
  c.isAlphanum ||
    [46, 33, 35, 36, 37, 38, 39, 42, 43, 47, 61, 63, 94, 95, 96, 123, 124, 125, 126, 45].contains
      c.toNat

/-- One domain label of `regexpEmail`, `[a-zA-Z0-9](?:[a-zA-Z0-9-]{0,61}[a-zA-Z0-9])?`: between
1 and 63 letters, digits or hyphens, the first and the last not a hyphen. -/
def emailLabel (l : List Char) : Bool :=
  match l with
  | [] => false
  | c :: cs =>
    c.isAlphanum &&
      (cs.isEmpty ||
        (decide (cs.length ≤ 62) && (cs.getLast?.any Char.isAlphanum) &&
          cs.all (fun x => x.isAlphanum || x == '-')))

/-- Splits a list of characters at every occurrence of `sep`. -/
def splitChars (sep : Char) : List Char → List (List Char)
  | [] => [[]]
  | c :: cs =>
    if c == sep then [] :: splitChars sep cs
    else
      match splitChars sep cs with
      | [] => [[c]]
      | l :: ls => (c :: l) :: ls

/-- `regexpEmail.MatchString`: a non-empty local part, one `@`, then domain labels separated by
dots. -/
def regexpEmailMatch (s : String) : Bool :=
  let cs := s.toList
  let localPart := cs.takeWhile (fun c => c != '@')
  match cs.dropWhile (fun c => c != '@') with
  | [] => false
  | _ :: domain =>
    !localPart.isEmpty && localPart.all emailLocalChar &&
      (splitChars '.' domain).all emailLabel

/-! ## The store -/

/-- The three columns `findUserByProvidedID` searches by. -/
inductive Column where
  | id
  | name
  | email
  deriving DecidableEq, Repr

/-- The value of a column in a row. -/
def Column.get : Column → UserRow → String
  | .id, r => r.orm.Id
  | .name, r => r.orm.Name
  | .email, r => r.orm.Email

/-- The accesses the handlers make to the store, as they appear in the journal. -/
inductive Query where
  | first (col : Column) (value : String)
  | create (u : UserORM)
  | delete (id : String)
  | updates (id : String) (coins gems : Int)
  | adminQuery (id : String)
  | rawQuery (sql : String)
  | defaultList
  deriving DecidableEq, Repr

/-- The database handle: the `users` table, the journal of the accesses made so far, and the
fault plan (`fault journal q` tells whether access `q`, issued after `journal`, is answered with
an error other than `gorm.ErrRecordNotFound`; a faulted access changes no row). -/
structure DB where
  rows : List UserRow
  journal : List Query
  fault : List Query → Query → Bool

/-- Records one access in the journal. -/
def DB.record (db : DB) (q : Query) : DB :=
  { db with journal := db.journal ++ [q] }

/-- The row with the least primary key of a result set (`First` orders by primary key). -/
def firstByPK : List UserRow → Option UserRow
  | [] => none
  | r :: rs =>
    some (rs.foldl (fun best x => if strLt x.orm.Id.toList best.orm.Id.toList then x else best) r)

/-- The row that `SELECT * FROM users WHERE <col> = value ORDER BY id LIMIT 1` yields. -/
def selectFirst (rows : List UserRow) (col : Column) (value : String) : Option UserRow :=
  firstByPK (rows.filter (fun r => decide (col.get r = value)))

/-- The row an identifier resolves to when no lookup is faulted: the one found by id, else the
one found by name, else the one found by email. -/
def resolveRow (rows : List UserRow) (x : String) : Option UserRow :=
  match selectFirst rows Column.id x with
  | some r => some r
  | none =>
    match selectFirst rows Column.name x with
    | some r => some r
    | none => selectFirst rows Column.email x

/-- `db.Where("<col> = ?", value).First(&existingUser)`. -/
def DB.First (db : DB) (col : Column) (value : String) : Except GormError UserORM × DB :=
  let db1 := db.record (Query.first col value)
  if db.fault db.journal (Query.first col value) then (.error .other, db1)
  else
    match selectFirst db.rows col value with
    | none => (.error .ErrRecordNotFound, db1)
    | some r => (.ok r.scan, db1)

/-- `db.Create(&newUser)`: a new row, with the `is_admin` column at its default; the primary key
must be fresh. -/
def DB.Create (db : DB) (newUser : UserORM) : Option GormError × DB :=
  let db1 := db.record (Query.create newUser)
  if db.fault db.journal (Query.create newUser) then (some .other, db1)
  else if db.rows.any (fun r => decide (r.orm.Id = newUser.Id)) then (some .other, db1)
  else (none, { db1 with rows := db.rows ++ [{ orm := newUser, is_admin := false }] })

/-- `db.Where("id = ?", id).Delete(&user)`. -/
def DB.Delete (db : DB) (id : String) : Option GormError × DB :=
  let db1 := db.record (Query.delete id)
  if db.fault db.journal (Query.delete id) then (some .other, db1)
  else (none, { db1 with rows := db.rows.filter (fun r => !decide (r.orm.Id = id)) })

/-- The effect on one row of the `UPDATE users SET coins = ?, gems = ?` that
`db.Model(&pb.UserORM{Id: id}).Updates(...)` issues: gorm adds the condition `WHERE id = ?` only
when the primary key of the model is not blank, so with a blank `id` every row is rewritten. -/
def setBalances (id : String) (coins gems : Int) (r : UserRow) : UserRow :=
  if id = "" ∨ r.orm.Id = id then
    { r with orm := { r.orm with Coins := coins, Gems := gems } }
  else r

/-- The update `db.Model(&pb.UserORM{Id: id}).Updates(map{"coins": coins, "gems": gems})`:
sets both columns in the rows whose primary key is `id`, and in every row when `id` is blank. -/
def DB.Updates (db : DB) (id : String) (coins gems : Int) : Option GormError × DB :=
  let db1 := db.record (Query.updates id coins gems)
  if db.fault db.journal (Query.updates id coins gems) then (some .other, db1)
  else (none, { db1 with rows := db.rows.map (setBalances id coins gems) })

/-- `db.DB().QueryRow(adminQuery, id).Scan(&isAdmin)`: the `is_admin` column of the row with
that id; an error when there is no such row. -/
def DB.QueryRowAdmin (db : DB) (id : String) : Except GormError Bool × DB :=
  let db1 := db.record (Query.adminQuery id)
  if db.fault db.journal (Query.adminQuery id) then (.error .other, db1)
  else
    match db.rows.find? (fun r => decide (r.orm.Id = id)) with
    | none => (.error .other, db1)
    | some r => (.ok r.is_admin, db1)

/-! ## Claims, requests and replies -/

/-- The type `jwt.StandardClaims` of the JWT library: the fields the literal in `Login` sets,
the timestamps in whole seconds since the epoch. -/
structure StandardClaims where
  Audience : String
  ExpiresAt : Int
  Id : String
  IssuedAt : Int
  Issuer : String
  NotBefore : Int
  deriving DecidableEq, Repr

/-- Modelled from the spec: `auth.GameClaims` is declared in package `auth`, outside `pkg/svc`;
the fields are the ones of the literal in `Login`. -/
structure GameClaims where
  UserId : String
  UserName : String
  UserEmail : String
  IsAdmin : Bool
  StandardClaims : StandardClaims
  deriving DecidableEq, Repr

/-- The type `timestamp.Timestamp` of the protobuf library. -/
structure Timestamp where
  Seconds : Int
  Nanos : Int
  deriving DecidableEq, Repr

/-- Modelled from the spec: `pb.CreateUserRequest` is generated code outside `pkg/svc`; the
fields are the ones `Create` reads. -/
structure CreateUserRequest where
  Name : String
  Email : String
  Password : String
  deriving DecidableEq, Repr

/-- Modelled from the spec: `pb.LoginRequest` is generated code outside `pkg/svc`; the fields
are the ones `Login` reads. -/
structure LoginRequest where
  Id : String
  Password : String
  deriving DecidableEq, Repr

/-- Modelled from the spec: `pb.LoginResponse` is generated code outside `pkg/svc`; the fields
are the ones of the literal in `Login`. -/
structure LoginResponse where
  Token : String
  ExpiresAt : Timestamp
  IsAdmin : Bool
  UserId : String
  deriving DecidableEq, Repr

/-- Modelled from the spec: `pb.GrantCurrenciesRequest` is generated code outside `pkg/svc`; the
fields are the ones `GrantCurrencies` reads. -/
structure GrantCurrenciesRequest where
  Id : String
  AddCoins : Int
  AddGems : Int
  deriving DecidableEq, Repr

/-- Modelled from the spec: `pb.GetUserCurrenciesResponse` is generated code outside `pkg/svc`;
the fields are the ones of the literal in `GetUserCurrencies`. -/
structure GetUserCurrenciesResponse where
  Coins : Int
  Gems : Int
  deriving DecidableEq, Repr

/-- The request of `List`: `OrderBy` is `none` for a nil sorting and else its `GoString()`
rendering; `Rest` stands for the filter, paging and field selection handed on unread. -/
structure ListUsersRequest where
  OrderBy : Option String
  Rest : String
  deriving DecidableEq, Repr

/-- One row of the result of the stats query: `name, games, wins, top5, kills`. -/
structure StatsScan where
  Name : String
  Games : Int
  Wins : Int
  Top5 : Int
  Kills : Int
  deriving DecidableEq, Repr

/-- What the handlers take from libraries and from generated code. -/
structure Env where
  /-- The function `hex.EncodeToString(sha256.Sum256([]byte(p))[:])`. -/
  sha256Hex : String → String
  /-- The tables of package `unicode`. -/
  unicode : UnicodeTables
  /-- The function `strings.ToLower`. -/
  ToLower : String → String
  /-- The result of `token.SignedString(s.cfg.RSAPrivateKey)`, `none` when signing fails. -/
  SignedString : GameClaims → Option String
  /-- The result of `pb.DefaultListUser` on a table. -/
  DefaultListUser : List UserRow → ListUsersRequest → Except GormError (List User)
  /-- The rows the raw stats query yields on a table; `none` is a row `rows.Scan` rejects. -/
  statsRows : List UserRow → String → Except GormError (List (Option StatsScan))
  /-- The width in bits of the signed integer type of the `coins` and `gems` fields, which the
  generated package `pb` declares. -/
  intBits : Nat

/-- Signed fixed-width wrap-around: the value of a Go signed integer of `bits` bits. -/
def wrapInt (bits : Nat) (x : Int) : Int :=
  (x + 2 ^ (bits - 1)) % 2 ^ bits - 2 ^ (bits - 1)

/-- Go `a + b` on signed integers of `bits` bits. -/
def goAdd (bits : Nat) (a b : Int) : Int :=
  wrapInt bits (a + b)

/-! ## Helpers of the server -/

/-- `hideSensitiveInfo`. -/
def UsersServer.hideSensitiveInfo (usr : User) : User :=
  { usr with Password := "" }

/-- `hideAllInfo`. -/
def UsersServer.hideAllInfo (usr : User) : User :=
  { usr with Password := "", Email := "", Id := "", Gems := 0, Coins := 0 }

/-- The slice `searchCriterias` of `findUserByProvidedID`. -/
def searchCriterias : List Column :=
  [Column.id, Column.name, Column.email]

/-- The loop of `findUserByProvidedID` over the criteria still to try: `ok none` when the loop
ends with `userFound` false, `ok (some u)` on `break`, `error` on the early return. -/
def findUserLoop (providedID : String) : List Column → DB → Except Status (Option UserORM) × DB
  | [], db => (.ok none, db)
  | searchCriteria :: rest, db =>
    match db.First searchCriteria providedID with
    | (.error .ErrRecordNotFound, db1) => findUserLoop providedID rest db1
    | (.error .other, db1) => (.error ⟨Code.Internal, "Could not find user"⟩, db1)
    | (.ok existingUser, db1) => (.ok (some existingUser), db1)

/-- `findUserByProvidedID`. -/
def UsersServer.findUserByProvidedID (db : DB) (providedID : String) : Except Status User × DB :=
  match findUserLoop providedID searchCriterias db with
  | (.error e, db1) => (.error e, db1)
  | (.ok (some existingUser), db1) => (.ok existingUser.ToPB, db1)
  | (.ok none, db1) => (.error ⟨Code.NotFound, "Could not find user"⟩, db1)

/-! ## Handlers -/

def msgNamePattern : String :=
  "User name should start with a letter and only have letters and numbers in them"

def msgNameLength : String :=
  "User name should have at least 4 characters in them"

def msgEmail : String :=
  "Invalid email provided"

def msgPassword : String :=
  "Password should be at least 8 characters with at least one number, one lowercase letter and one uppercase letter"

def msgNameExists : String :=
  "User with such name already exists"

def msgEmailExists : String :=
  "User with such email already exists"

def msgCreateInternal : String :=
  "Could not create new user"

/-- The part of `Create` after the uniqueness checks: digest, record, insert, reply. -/
def UsersServer.CreateInsert (env : Env) (db : DB) (userID : String) (req : CreateUserRequest) :
    Except Status User × DB :=
  let hexPassword := env.sha256Hex req.Password
  let newUser : UserORM :=
    { Id := userID, Email := req.Email, Name := req.Name, Password := hexPassword,
      Stats := some { Games := 0, Wins := 0, Top5 := 0, Kills := 0 }, Coins := 0, Gems := 0 }
  match db.Create newUser with
  | (some _, db1) => (.error ⟨Code.Internal, msgCreateInternal⟩, db1)
  | (none, db1) => (.ok (hideSensitiveInfo newUser.ToPB), db1)

/-- `UsersServer.Create`; `userID` is the value of `uuid.NewV4().String()`. -/
def UsersServer.Create (env : Env) (db : DB) (userID : String) (req : CreateUserRequest) :
    Except Status User × DB :=
  if !regexpNameMatch req.Name then (.error ⟨Code.InvalidArgument, msgNamePattern⟩, db)
  else if req.Name.utf8ByteSize < 4 then (.error ⟨Code.InvalidArgument, msgNameLength⟩, db)
  else if !regexpEmailMatch req.Email then (.error ⟨Code.InvalidArgument, msgEmail⟩, db)
  else
    match verifyPassword env.unicode req.Password with
    | (ok1, ok2, ok3) =>
      if !ok1 || !ok2 || !ok3 then (.error ⟨Code.InvalidArgument, msgPassword⟩, db)
      else
        match db.First Column.name req.Name with
        | (.ok _, db1) => (.error ⟨Code.InvalidArgument, msgNameExists⟩, db1)
        | (.error .other, db1) => (.error ⟨Code.Internal, msgCreateInternal⟩, db1)
        | (.error .ErrRecordNotFound, db1) =>
          match db1.First Column.email req.Email with
          | (.ok _, db2) => (.error ⟨Code.InvalidArgument, msgEmailExists⟩, db2)
          | (.error .other, db2) => (.error ⟨Code.Internal, msgCreateInternal⟩, db2)
          | (.error .ErrRecordNotFound, db2) => CreateInsert env db2 userID req

/-- The error of the self-access guard. -/
def errNotAuthorized : Status :=
  ⟨Code.Unauthenticated, "Not authorized for another user"⟩

/-- `UsersServer.Read`; `claims` is the value of `auth.GetAuthorizationData(ctx)`. -/
def UsersServer.Read (db : DB) (claims : GameClaims) (id : String) : Except Status User × DB :=
  if !claims.IsAdmin && claims.UserId != id && claims.UserName != id && claims.UserEmail != id then
    (.error errNotAuthorized, db)
  else
    match findUserByProvidedID db id with
    | (.error err, db1) => (.error err, db1)
    | (.ok usr, db1) => (.ok (hideSensitiveInfo usr), db1)

/-- `UsersServer.Delete`. -/
def UsersServer.Delete (db : DB) (claims : GameClaims) (id : String) : Except Status Unit × DB :=
  if !claims.IsAdmin && claims.UserId != id then (.error errNotAuthorized, db)
  else
    match db.Delete id with
    | (some .other, db1) => (.error ⟨Code.Internal, "Could not delete user"⟩, db1)
    | (some .ErrRecordNotFound, db1) => (.ok (), db1)
    | (none, db1) => (.ok (), db1)

/-- `UsersServer.Update`. -/
def UsersServer.Update (db : DB) (_id : String) : Except Status Unit × DB :=
  (.error ⟨Code.Unimplemented, "Non-MVP endpoint"⟩, db)

/-- Go `strings.Contains` on the characters of two texts. -/
def stringsContains (s sub : String) : Bool :=
  s.toList.tails.any (fun t => sub.toList.isPrefixOf t)

/-- The first element of `strings.Split(s, ",")`. -/
def splitCommaHead (s : String) : String :=
  String.mk (s.toList.takeWhile (fun c => c != ','))

/-- The constant `fetchUsersByStatsQuery`. -/
def fetchUsersByStatsQuery : String :=
  "SELECT u.name, us.games, us.wins, us.top5, us.kills FROM users u JOIN user_stats us ON us.user_id = u.id "

/-- The `for rows.Next()` loop of `List`: `none` when a `rows.Scan` fails. -/
def scanStatsRows : List (Option StatsScan) → Option (List User)
  | [] => some []
  | none :: _ => none
  | some r :: rest =>
    match scanStatsRows rest with
    | none => none
    | some users =>
      some
        ({ Id := "", Name := r.Name, Email := "", Password := "",
           Stats := some { Games := r.Games, Wins := r.Wins, Top5 := r.Top5, Kills := r.Kills },
           Coins := 0, Gems := 0 } :: users)

/-- The default path of `List`: the audience guard, `pb.DefaultListUser`, the hiding loop. -/
def UsersServer.ListDefault (env : Env) (db : DB) (claims : GameClaims) (req : ListUsersRequest) :
    Except Status (List User) × DB :=
  if !claims.IsAdmin && claims.StandardClaims.Audience != "svc" then
    (.error ⟨Code.Unauthenticated,
      "Restricted access in global usage - please use _order_by parameter"⟩, db)
  else
    let db1 := db.record Query.defaultList
    if db.fault db.journal Query.defaultList then
      (.error ⟨Code.Internal, "Could not list users"⟩, db1)
    else
      match env.DefaultListUser db.rows req with
      | .error _ => (.error ⟨Code.Internal, "Could not list users"⟩, db1)
      | .ok res => (.ok (res.map hideSensitiveInfo), db1)

/-- `UsersServer.List`. -/
def UsersServer.List (env : Env) (db : DB) (claims : GameClaims) (req : ListUsersRequest) :
    Except Status (List User) × DB :=
  match req.OrderBy with
  | none => ListDefault env db claims req
  | some goString =>
    let orderBy := env.ToLower goString
    if stringsContains orderBy "kills" || stringsContains orderBy "top5" ||
        stringsContains orderBy "wins" || stringsContains orderBy "games" then
      let resQuery :=
        fetchUsersByStatsQuery ++ "ORDER BY " ++ "us." ++ splitCommaHead orderBy ++ " LIMIT 100"
      let db1 := db.record (Query.rawQuery resQuery)
      if db.fault db.journal (Query.rawQuery resQuery) then
        (.error ⟨Code.Internal, "Could not fetch users"⟩, db1)
      else
        match env.statsRows db.rows resQuery with
        | .error _ => (.error ⟨Code.Internal, "Could not fetch users"⟩, db1)
        | .ok rows =>
          match scanStatsRows rows with
          | none => (.error ⟨Code.Internal, "Could not fetch users by stats"⟩, db1)
          | some users => (.ok users, db1)
    else ListDefault env db claims req

/-- The error `Login` returns for an unknown identifier and for a wrong password. -/
def errInvalidLogin : Status :=
  ⟨Code.InvalidArgument, "Invalid login/password"⟩

/-- The error of `Login` after the credentials were accepted. -/
def errUnableToLogin : Status :=
  ⟨Code.Internal, "Unable to login"⟩

/-- Nanoseconds in `8 * time.Hour`. -/
def eightHours : Int :=
  8 * 3600 * 1000000000

/-- `Time.Unix()`: whole seconds since the epoch of an instant given in nanoseconds. -/
def unixSeconds (t : Int) : Int :=
  t / 1000000000

/-- `ptypes.TimestampProto`: seconds and nanoseconds of the instant, refused outside the years
1 to 9999. -/
def TimestampProto (t : Int) : Option Timestamp :=
  if unixSeconds t < -62135596800 ∨ unixSeconds t ≥ 253402300800 then none
  else some { Seconds := unixSeconds t, Nanos := t % 1000000000 }

/-- The claims literal of `Login`: `expiresAt` is the instant computed before the literal,
`tokenID` the value of `uuid.NewV4().String()`, `nowIssued` and `nowNotBefore` the instants that
the two calls of `time.Now()` inside the literal return. -/
def loginClaims (usr : User) (isAdmin : Bool) (expiresAt : Int) (tokenID : String)
    (nowIssued nowNotBefore : Int) : GameClaims :=
  { UserId := usr.Id, UserName := usr.Name, UserEmail := usr.Email, IsAdmin := isAdmin,
    StandardClaims :=
      { Audience := "medieval", ExpiresAt := unixSeconds expiresAt, Id := tokenID,
        IssuedAt := unixSeconds nowIssued, Issuer := "users-service",
        NotBefore := unixSeconds nowNotBefore } }

/-- The part of `Login` after the password check; `now1`, `now2`, `now3` are the instants the
three calls of `time.Now()` return, in the order the calls are made. -/
def UsersServer.LoginIssue (env : Env) (db : DB) (tokenID : String) (now1 now2 now3 : Int) (usr : User) :
    Except Status LoginResponse × DB :=
  match db.QueryRowAdmin usr.Id with
  | (.error _, db1) => (.error errUnableToLogin, db1)
  | (.ok isAdmin, db1) =>
    let expiresAt := now1 + eightHours
    let claims := loginClaims usr isAdmin expiresAt tokenID now2 now3
    match env.SignedString claims with
    | none => (.error errUnableToLogin, db1)
    | some tokenString =>
      match TimestampProto expiresAt with
      | none => (.error errUnableToLogin, db1)
      | some expiresAtPb =>
        (.ok { Token := tokenString, ExpiresAt := expiresAtPb, IsAdmin := isAdmin,
               UserId := usr.Id }, db1)

/-- `UsersServer.Login`. -/
def UsersServer.Login (env : Env) (db : DB) (tokenID : String) (now1 now2 now3 : Int) (req : LoginRequest) :
    Except Status LoginResponse × DB :=
  match findUserByProvidedID db req.Id with
  | (.error _, db1) => (.error errInvalidLogin, db1)
  | (.ok usr, db1) =>
    let hexPassword := env.sha256Hex req.Password
    if usr.Password != hexPassword then (.error errInvalidLogin, db1)
    else LoginIssue env db1 tokenID now1 now2 now3 usr

/-- `UsersServer.GrantCurrencies`. -/
def UsersServer.GrantCurrencies (env : Env) (db : DB) (req : GrantCurrenciesRequest) :
    Except Status Unit × DB :=
  match findUserByProvidedID db req.Id with
  | (.error err, db1) => (.error err, db1)
  | (.ok usr, db1) =>
    match db1.Updates usr.Id (goAdd env.intBits usr.Coins req.AddCoins)
        (goAdd env.intBits usr.Gems req.AddGems) with
    | (some _, db2) => (.error ⟨Code.Internal, "Unable to grant currencies"⟩, db2)
    | (none, db2) => (.ok (), db2)

/-- `UsersServer.GetUserCurrencies`. -/
def UsersServer.GetUserCurrencies (db : DB) (claims : GameClaims) (id : String) :
    Except Status GetUserCurrenciesResponse × DB :=
  if !claims.IsAdmin && claims.UserId != id && claims.UserName != id && claims.UserEmail != id then
    (.error errNotAuthorized, db)
  else
    match findUserByProvidedID db id with
    | (.error err, db1) => (.error err, db1)
    | (.ok usr, db1) => (.ok { Coins := usr.Coins, Gems := usr.Gems }, db1)

/-! ## One call of `GrantCurrencies`, store access by store access -/

/-- Where a call of `GrantCurrencies` stands between two of its store accesses: in the loop of
`findUserByProvidedID` with the criteria still to try, holding the resolved `usr` before the
update, or returned. -/
inductive GrantPC where
  | lookup (todo : List Column)
  | update (usr : User)
  | returned (reply : Except Status Unit)

/-- The next store access of a call of `GrantCurrencies` (a call that has returned stays). -/
def GrantCurrenciesStep (env : Env) (req : GrantCurrenciesRequest) : GrantPC → DB → GrantPC × DB
  | .lookup [], db => (.returned (.error ⟨Code.NotFound, "Could not find user"⟩), db)
  | .lookup (searchCriteria :: rest), db =>
    match db.First searchCriteria req.Id with
    | (.error .ErrRecordNotFound, db1) => (.lookup rest, db1)
    | (.error .other, db1) => (.returned (.error ⟨Code.Internal, "Could not find user"⟩), db1)
    | (.ok existingUser, db1) => (.update existingUser.ToPB, db1)
  | .update usr, db =>
    match db.Updates usr.Id (goAdd env.intBits usr.Coins req.AddCoins)
        (goAdd env.intBits usr.Gems req.AddGems) with
    | (some _, db2) => (.returned (.error ⟨Code.Internal, "Unable to grant currencies"⟩), db2)
    | (none, db2) => (.returned (.ok ()), db2)
  | .returned reply, db => (.returned reply, db)

/-- A call of `GrantCurrencies` run alone for `n` steps. -/
def GrantCurrenciesRun (env : Env) (req : GrantCurrenciesRequest) : Nat → GrantPC → DB → GrantPC × DB
  | 0, pc, db => (pc, db)
  | n + 1, pc, db =>
    match GrantCurrenciesStep env req pc db with
    | (pc1, db1) => GrantCurrenciesRun env req n pc1 db1

/-- Two concurrent calls of `GrantCurrencies` under a schedule: `true` lets the first call make
its next store access, `false` the second. -/
def GrantCurrenciesInterleaved (env : Env) (reqA reqB : GrantCurrenciesRequest) :
    List Bool → GrantPC × GrantPC × DB → GrantPC × GrantPC × DB
  | [], st => st
  | true :: sched, (pcA, pcB, db) =>
    match GrantCurrenciesStep env reqA pcA db with
    | (pcA1, db1) => GrantCurrenciesInterleaved env reqA reqB sched (pcA1, pcB, db1)
  | false :: sched, (pcA, pcB, db) =>
    match GrantCurrenciesStep env reqB pcB db with
    | (pcB1, db1) => GrantCurrenciesInterleaved env reqA reqB sched (pcA, pcB1, db1)

/-- The coin and gem balances of the rows with a given id. -/
def balancesOf (db : DB) (id : String) : List (Int × Int) :=
  (db.rows.filter (fun r => decide (r.orm.Id = id))).map (fun r => (r.orm.Coins, r.orm.Gems))

/-! ## Sample values -/

/-- An environment for evaluation: a stand-in digest, ASCII-only tables, 32-bit balances. -/
def sampleEnv : Env :=
  { sha256Hex := fun p => "sha256:" ++ p,
    unicode := UnicodeTables.ascii,
    ToLower := fun t => String.mk (t.toList.map Char.toLower),
    SignedString := fun c => some ("token-for-" ++ c.UserId),
    DefaultListUser := fun rows _ => .ok (rows.map (fun r => r.orm.ToPB)),
    statsRows := fun rows _ =>
      .ok (rows.map (fun r => some { Name := r.orm.Name, Games := 0, Wins := 0, Top5 := 0, Kills := 0 })),
    intBits := 32 }

/-- The account of the resolution example: id 1, name bob, email b@x.com. -/
def bob : UserRow :=
  { orm := { Id := "1", Email := "b@x.com", Name := "bob", Password := "sha256:Passw0rd",
             Stats := none, Coins := 10, Gems := 10 },
    is_admin := false }

/-- A second account. -/
def alice : UserRow :=
  { orm := { Id := "2", Email := "a@x.com", Name := "alice", Password := "sha256:Secret123",
             Stats := none, Coins := 7, Gems := 0 },
    is_admin := true }

/-- The account that registering carol with id 3 stores: the digest and empty stats. -/
def carol : UserRow :=
  { orm := { Id := "3", Email := "c@x.com", Name := "carol", Password := "sha256:Passw0rd",
             Stats := some { Games := 0, Wins := 0, Top5 := 0, Kills := 0 },
             Coins := 0, Gems := 0 },
    is_admin := false }

/-- A store without faults holding the given rows. -/
def storeOf (rows : List UserRow) : DB :=
  { rows := rows, journal := [], fault := fun _ _ => false }

/-- A store in which every access is answered with an error. -/
def brokenStoreOf (rows : List UserRow) : DB :=
  { rows := rows, journal := [], fault := fun _ _ => true }

/-- Claims of a caller. -/
def claimsOf (id name email : String) (isAdmin : Bool) : GameClaims :=
  { UserId := id, UserName := name, UserEmail := email, IsAdmin := isAdmin,
    StandardClaims :=
      { Audience := "medieval", ExpiresAt := 0, Id := "", IssuedAt := 0,
        Issuer := "users-service", NotBefore := 0 } }

/-! # Properties -/

/-! ## Password strength (`verifyPassword`) -/

theorem foldl_pick_mem (f : UserRow → UserRow → Bool) (rs : List UserRow) (r : UserRow) :
    rs.foldl (fun best x => if f x best then x else best) r ∈ r :: rs := by
  induction rs generalizing r with
  | nil => simp
  | cons a rs ih =>
    simp only [List.foldl_cons]
    have h := ih (if f a r = true then a else r)
    by_cases hf : f a r = true
    · rw [if_pos hf] at h ⊢
      rcases List.mem_cons.mp h with h | h
      · rw [h]; simp
      · exact List.mem_cons_of_mem _ (List.mem_cons_of_mem _ h)
    · rw [if_neg hf] at h ⊢
      rcases List.mem_cons.mp h with h | h
      · rw [h]; simp
      · exact List.mem_cons_of_mem _ (List.mem_cons_of_mem _ h)

theorem firstByPK_mem (l : List UserRow) (r : UserRow) (h : firstByPK l = some r) : r ∈ l := by
  cases l with
  | nil => simp [firstByPK] at h
  | cons a rs =>
    simp only [firstByPK, Option.some.injEq] at h
    rw [← h]
    exact foldl_pick_mem _ rs a

theorem firstByPK_eq_none (l : List UserRow) : firstByPK l = none ↔ l = [] := by
  cases l with
  | nil => simp [firstByPK]
  | cons a rs => simp [firstByPK]

theorem selectFirst_some (rows : List UserRow) (col : Column) (value : String) (r : UserRow)
    (h : selectFirst rows col value = some r) : r ∈ rows ∧ col.get r = value := by
  have hm := firstByPK_mem _ r h
  simpa using hm

theorem selectFirst_eq_none (rows : List UserRow) (col : Column) (value : String) :
    selectFirst rows col value = none ↔ ∀ r ∈ rows, col.get r ≠ value := by
  unfold selectFirst
  rw [firstByPK_eq_none, List.filter_eq_nil_iff]
  simp

theorem First_snd (db : DB) (col : Column) (value : String) :
    (db.First col value).2 = db.record (Query.first col value) := by
  unfold DB.First
  split
  · rfl
  · split <;> rfl

theorem First_fault (db : DB) (col : Column) (value : String)
    (h : db.fault db.journal (Query.first col value) = true) :
    (db.First col value).1 = .error .other := by
  unfold DB.First
  simp [h]

theorem First_ok (db : DB) (col : Column) (value : String) (u : UserORM)
    (h : (db.First col value).1 = .ok u) :
    db.fault db.journal (Query.first col value) = false ∧
      ∃ r, selectFirst db.rows col value = some r ∧ r.scan = u := by
  unfold DB.First at h
  by_cases hf : db.fault db.journal (Query.first col value) = true
  · simp [hf] at h
  · simp only [hf, if_false] at h
    refine ⟨by simpa using hf, ?_⟩
    cases hsel : selectFirst db.rows col value with
    | none => simp [hsel] at h
    | some r =>
      simp only [hsel] at h
      injection h with h
      exact ⟨r, rfl, h⟩

theorem First_notFound (db : DB) (col : Column) (value : String) :
    (db.First col value).1 = .error .ErrRecordNotFound ↔
      db.fault db.journal (Query.first col value) = false ∧
        selectFirst db.rows col value = none := by
  unfold DB.First
  by_cases hf : db.fault db.journal (Query.first col value) = true
  · simp [hf]
  · have hf2 : db.fault db.journal (Query.first col value) = false := by simpa using hf
    simp only [hf2, Bool.false_eq_true, if_false, true_and]
    cases hsel : selectFirst db.rows col value with
    | none => simp
    | some r => simp

theorem First_other (db : DB) (col : Column) (value : String) :
    (db.First col value).1 = .error .other ↔
      db.fault db.journal (Query.first col value) = true := by
  unfold DB.First
  by_cases hf : db.fault db.journal (Query.first col value) = true
  · simp [hf]
  · have hf2 : db.fault db.journal (Query.first col value) = false := by simpa using hf
    simp only [hf2, Bool.false_eq_true, if_false]
    cases hsel : selectFirst db.rows col value with
    | none => simp
    | some r => simp

theorem First_found (db : DB) (col : Column) (value : String)
    (hf : db.fault db.journal (Query.first col value) = false)
    (hex : ∃ r ∈ db.rows, col.get r = value) : ∃ u, (db.First col value).1 = .ok u := by
  cases hsel : selectFirst db.rows col value with
  | none =>
    obtain ⟨r, hr, hv⟩ := hex
    exact absurd hv ((selectFirst_eq_none _ _ _).mp hsel r hr)
  | some r =>
    refine ⟨r.scan, ?_⟩
    unfold DB.First
    simp [hf, hsel]

/-! ## Identity resolution (`findUserByProvidedID`) -/

/-- The reply for an identifier no criterion matches. -/
theorem findUserLoop_cons (x : String) (c : Column) (rest : List Column) (db : DB) :
    findUserLoop x (c :: rest) db =
      match (db.First c x).1 with
      | .error .ErrRecordNotFound => findUserLoop x rest (db.record (Query.first c x))
      | .error .other =>
        (.error ⟨Code.Internal, "Could not find user"⟩, db.record (Query.first c x))
      | .ok u => (.ok (some u), db.record (Query.first c x)) := by
  have h2 := First_snd db c x
  rw [findUserLoop]
  generalize db.First c x = p at h2 ⊢
  obtain ⟨r, d⟩ := p
  simp only at h2
  subst h2
  cases r with
  | error e => cases e <;> rfl
  | ok u => rfl

theorem findUser_unfold (db : DB) (x : String) :
    UsersServer.findUserByProvidedID db x =
      match (db.First Column.id x).1 with
      | .ok u => (.ok u.ToPB, db.record (Query.first Column.id x))
      | .error .other =>
        (.error ⟨Code.Internal, "Could not find user"⟩, db.record (Query.first Column.id x))
      | .error .ErrRecordNotFound =>
        match ((db.record (Query.first Column.id x)).First Column.name x).1 with
        | .ok u =>
          (.ok u.ToPB, (db.record (Query.first Column.id x)).record (Query.first Column.name x))
        | .error .other =>
          (.error ⟨Code.Internal, "Could not find user"⟩,
            (db.record (Query.first Column.id x)).record (Query.first Column.name x))
        | .error .ErrRecordNotFound =>
          match (((db.record (Query.first Column.id x)).record
              (Query.first Column.name x)).First Column.email x).1 with
          | .ok u =>
            (.ok u.ToPB,
              ((db.record (Query.first Column.id x)).record (Query.first Column.name x)).record
                (Query.first Column.email x))
          | .error .other =>
            (.error ⟨Code.Internal, "Could not find user"⟩,
              ((db.record (Query.first Column.id x)).record (Query.first Column.name x)).record
                (Query.first Column.email x))
          | .error .ErrRecordNotFound =>
            (.error ⟨Code.NotFound, "Could not find user"⟩,
              ((db.record (Query.first Column.id x)).record (Query.first Column.name x)).record
                (Query.first Column.email x)) := by
  unfold UsersServer.findUserByProvidedID searchCriterias
  rw [findUserLoop_cons]
  rcases h1 : (db.First Column.id x).1 with e1 | u1
  · cases e1
    · simp only []
      rw [findUserLoop_cons]
      rcases h2 : ((db.record (Query.first Column.id x)).First Column.name x).1 with e2 | u2
      · cases e2
        · simp only []
          rw [findUserLoop_cons]
          rcases h3 : (((db.record (Query.first Column.id x)).record
              (Query.first Column.name x)).First Column.email x).1 with e3 | u3
          · cases e3 <;> rfl
          · rfl
        · rfl
      · rfl
    · rfl
  · rfl

/-- C4. Identity resolution by ordered fallback: `findUserByProvidedID` looks the identifier up
as id, then as name, then as email (each lookup an exact match on that column of a stored row,
yielding the columns of that row without its stats, and recorded in the journal), returns the account of the first lookup that finds one, returns
NotFound exactly when all three lookups report not-found, and returns Internal at the first
lookup that fails with another store error, with no further lookup in the journal.  In a store
holding only the account id 1, name bob, email b@x.com the identifiers 1, bob and b@x.com resolve
to that account and nobody resolves to NotFound. -/
theorem findUserByProvidedID_ordered_fallback (db : DB) (x : String) :
    (∀ u, (db.First Column.id x).1 = .ok u →
      UsersServer.findUserByProvidedID db x = (.ok u.ToPB, (db.First Column.id x).2)) ∧
    (∀ u, (db.First Column.id x).1 = .error .ErrRecordNotFound →
      (((db.First Column.id x).2).First Column.name x).1 = .ok u →
      UsersServer.findUserByProvidedID db x =
        (.ok u.ToPB, (((db.First Column.id x).2).First Column.name x).2)) ∧
    (∀ u, (db.First Column.id x).1 = .error .ErrRecordNotFound →
      (((db.First Column.id x).2).First Column.name x).1 = .error .ErrRecordNotFound →
      ((((db.First Column.id x).2).First Column.name x).2.First Column.email x).1 = .ok u →
      UsersServer.findUserByProvidedID db x =
        (.ok u.ToPB, ((((db.First Column.id x).2).First Column.name x).2.First Column.email x).2)) ∧
    ((UsersServer.findUserByProvidedID db x).1 = .error ⟨Code.NotFound, "Could not find user"⟩ ↔
      (db.First Column.id x).1 = .error .ErrRecordNotFound ∧
      (((db.First Column.id x).2).First Column.name x).1 = .error .ErrRecordNotFound ∧
      ((((db.First Column.id x).2).First Column.name x).2.First Column.email x).1 =
        .error .ErrRecordNotFound) ∧
    ((db.First Column.id x).1 = .error .other →
      UsersServer.findUserByProvidedID db x =
        (.error ⟨Code.Internal, "Could not find user"⟩, (db.First Column.id x).2)) ∧
    ((db.First Column.id x).1 = .error .ErrRecordNotFound →
      (((db.First Column.id x).2).First Column.name x).1 = .error .other →
      UsersServer.findUserByProvidedID db x =
        (.error ⟨Code.Internal, "Could not find user"⟩,
          (((db.First Column.id x).2).First Column.name x).2)) ∧
    ((db.First Column.id x).1 = .error .ErrRecordNotFound →
      (((db.First Column.id x).2).First Column.name x).1 = .error .ErrRecordNotFound →
      ((((db.First Column.id x).2).First Column.name x).2.First Column.email x).1 =
        .error .other →
      UsersServer.findUserByProvidedID db x =
        (.error ⟨Code.Internal, "Could not find user"⟩,
          ((((db.First Column.id x).2).First Column.name x).2.First Column.email x).2)) ∧
    (∀ (d : DB) (c : Column),
      (d.First c x).2 = { d with journal := d.journal ++ [Query.first c x] }) ∧
    (∀ (d : DB) (c : Column) (u : UserORM), (d.First c x).1 = .ok u →
      ∃ r ∈ d.rows, { r.orm with Stats := none } = u ∧ c.get r = x) ∧
    (∀ (d : DB) (c : Column), (d.First c x).1 = .error .ErrRecordNotFound ↔
      (d.fault d.journal (Query.first c x) = false ∧ ∀ r ∈ d.rows, c.get r ≠ x)) ∧
    (∀ (d : DB) (c : Column), (d.First c x).1 = .error .other ↔
      d.fault d.journal (Query.first c x) = true) ∧
    ((UsersServer.findUserByProvidedID (storeOf [bob]) "1").1 = .ok bob.orm.ToPB ∧
      (UsersServer.findUserByProvidedID (storeOf [bob]) "bob").1 = .ok bob.orm.ToPB ∧
      (UsersServer.findUserByProvidedID (storeOf [bob]) "b@x.com").1 = .ok bob.orm.ToPB ∧
      (UsersServer.findUserByProvidedID (storeOf [bob]) "nobody").1 =
        .error ⟨Code.NotFound, "Could not find user"⟩) := by
  simp only [First_snd]
  refine ⟨?_, ?_, ?_, ?_, ?_, ?_, ?_, ?_, ?_, ?_, ?_, ?_⟩
  · intro u h1
    rw [findUser_unfold, h1]
  · intro u h1 h2
    rw [findUser_unfold, h1]
    simp only []
    rw [h2]
  · intro u h1 h2 h3
    rw [findUser_unfold, h1]
    simp only []
    rw [h2]
    simp only []
    rw [h3]
  · rw [findUser_unfold]
    rcases h1 : (db.First Column.id x).1 with e1 | u1
    · cases e1
      · simp only []
        rcases h2 : ((db.record (Query.first Column.id x)).First Column.name x).1 with e2 | u2
        · cases e2
          · simp only []
            rcases h3 : (((db.record (Query.first Column.id x)).record
                (Query.first Column.name x)).First Column.email x).1 with e3 | u3
            · cases e3 <;> simp
            · simp
          · simp
        · simp
      · simp
    · simp
  · intro h1
    rw [findUser_unfold, h1]
  · intro h1 h2
    rw [findUser_unfold, h1]
    simp only []
    rw [h2]
  · intro h1 h2 h3
    rw [findUser_unfold, h1]
    simp only []
    rw [h2]
    simp only []
    rw [h3]
  · intro d c
    rfl
  · intro d c u h
    obtain ⟨_, r, hr, hu⟩ := First_ok d c x u h
    have := selectFirst_some _ _ _ _ hr
    exact ⟨r, this.1, hu, this.2⟩
  · intro d c
    rw [First_notFound, selectFirst_eq_none]
  · intro d c
    exact First_other d c x
  · exact ⟨rfl, rfl, rfl, rfl⟩

/-- Witness for C4: in the store holding bob and alice the identifier alice is not an id, is
found by name, and resolves to the stored account. -/
theorem findUserByProvidedID_ordered_fallback_witness :
    UsersServer.findUserByProvidedID (storeOf [bob, alice]) "alice" =
      (.ok alice.orm.ToPB,
        (((storeOf [bob, alice]).First Column.id "alice").2).First Column.name "alice" |>.2) :=
  (findUserByProvidedID_ordered_fallback (storeOf [bob, alice]) "alice").2.1 alice.orm
    rfl rfl

theorem record_rows (db : DB) (q : Query) : (db.record q).rows = db.rows := rfl

theorem record_fault (db : DB) (q : Query) : (db.record q).fault = db.fault := rfl

theorem findUser_error (db : DB) (x : String) (e : Status)
    (h : (UsersServer.findUserByProvidedID db x).1 = .error e) :
    e = ⟨Code.Internal, "Could not find user"⟩ ∨ e = ⟨Code.NotFound, "Could not find user"⟩ := by
  rw [findUser_unfold] at h
  split at h
  · cases h
  · injection h with h; exact Or.inl h.symm
  · split at h
    · cases h
    · injection h with h; exact Or.inl h.symm
    · split at h
      · cases h
      · injection h with h; exact Or.inl h.symm
      · injection h with h; exact Or.inr h.symm

/-- A resolved account is a stored one: the row `resolveRow` selects, as `First` scans it. -/
theorem findUser_ok (db : DB) (x : String) (usr : User)
    (h : (UsersServer.findUserByProvidedID db x).1 = .ok usr) :
    ∃ r, resolveRow db.rows x = some r ∧ usr = r.scan.ToPB := by
  rw [findUser_unfold] at h
  unfold resolveRow
  rcases h1 : (db.First Column.id x).1 with e1 | u1
  · rw [h1] at h
    cases e1
    · simp only [] at h
      have n1 := ((First_notFound db Column.id x).mp h1).2
      rw [n1]
      simp only []
      rcases h2 : ((db.record (Query.first Column.id x)).First Column.name x).1 with e2 | u2
      · rw [h2] at h
        cases e2
        · simp only [] at h
          have n2 := ((First_notFound _ Column.name x).mp h2).2
          rw [record_rows] at n2
          rw [n2]
          simp only []
          rcases h3 : (((db.record (Query.first Column.id x)).record
              (Query.first Column.name x)).First Column.email x).1 with e3 | u3
          · rw [h3] at h
            cases e3 <;> cases h
          · rw [h3] at h
            injection h with h
            obtain ⟨_, r, hr, hu⟩ := First_ok _ _ _ _ h3
            exact ⟨r, hr, by rw [← h, hu]⟩
        · cases h
      · rw [h2] at h
        injection h with h
        obtain ⟨_, r, hr, hu⟩ := First_ok _ _ _ _ h2
        rw [record_rows] at hr
        rw [hr]
        exact ⟨r, rfl, by rw [← h, hu]⟩
    · cases h
  · rw [h1] at h
    injection h with h
    obtain ⟨_, r, hr, hu⟩ := First_ok _ _ _ _ h1
    rw [hr]
    exact ⟨r, rfl, by rw [← h, hu]⟩

theorem resolveRow_mem (rows : List UserRow) (x : String) (r : UserRow)
    (h : resolveRow rows x = some r) :
    r ∈ rows ∧ (r.orm.Id = x ∨ r.orm.Name = x ∨ r.orm.Email = x) := by
  unfold resolveRow at h
  split at h
  · rename_i r1 h1
    injection h with h
    subst h
    have := selectFirst_some _ _ _ _ h1
    exact ⟨this.1, Or.inl this.2⟩
  · split at h
    · rename_i r2 h2
      injection h with h
      subst h
      have := selectFirst_some _ _ _ _ h2
      exact ⟨this.1, Or.inr (Or.inl this.2)⟩
    · have := selectFirst_some _ _ _ _ h
      exact ⟨this.1, Or.inr (Or.inr this.2)⟩

/-! ## Login: uniform failure -/

/-- C1. Login fails uniformly: when the resolver returns NotFound, when it returns the Internal
error of a store failure, and when the resolved account has a stored digest different from the
hex SHA-256 digest of the supplied password, `Login` returns the same error, InvalidArgument
with the message Invalid login/password, and no token; the store is left as the resolver left
it. -/
theorem Login_uniform_failure (env : Env) (db : DB) (tokenID : String) (now1 now2 now3 : Int)
    (req : LoginRequest) :
    ((UsersServer.findUserByProvidedID db req.Id).1 =
        .error ⟨Code.NotFound, "Could not find user"⟩ →
      UsersServer.Login env db tokenID now1 now2 now3 req =
        (.error ⟨Code.InvalidArgument, "Invalid login/password"⟩,
          (UsersServer.findUserByProvidedID db req.Id).2)) ∧
    ((UsersServer.findUserByProvidedID db req.Id).1 =
        .error ⟨Code.Internal, "Could not find user"⟩ →
      UsersServer.Login env db tokenID now1 now2 now3 req =
        (.error ⟨Code.InvalidArgument, "Invalid login/password"⟩,
          (UsersServer.findUserByProvidedID db req.Id).2)) ∧
    (∀ usr : User, (UsersServer.findUserByProvidedID db req.Id).1 = .ok usr →
      usr.Password ≠ env.sha256Hex req.Password →
      UsersServer.Login env db tokenID now1 now2 now3 req =
        (.error ⟨Code.InvalidArgument, "Invalid login/password"⟩,
          (UsersServer.findUserByProvidedID db req.Id).2)) ∧
    (∀ resp : LoginResponse,
      (UsersServer.Login env db tokenID now1 now2 now3 req).1 = .ok resp →
      ∃ usr : User, (UsersServer.findUserByProvidedID db req.Id).1 = .ok usr ∧
        usr.Password = env.sha256Hex req.Password) := by
  have herr : ∀ e, (UsersServer.findUserByProvidedID db req.Id).1 = .error e →
      UsersServer.Login env db tokenID now1 now2 now3 req =
        (.error ⟨Code.InvalidArgument, "Invalid login/password"⟩,
          (UsersServer.findUserByProvidedID db req.Id).2) := by
    intro e h
    unfold UsersServer.Login
    generalize UsersServer.findUserByProvidedID db req.Id = p at h ⊢
    obtain ⟨r, d⟩ := p
    simp only at h
    subst h
    rfl
  refine ⟨herr _, herr _, ?_, ?_⟩
  · intro usr h hne
    unfold UsersServer.Login
    generalize UsersServer.findUserByProvidedID db req.Id = p at h ⊢
    obtain ⟨r, d⟩ := p
    simp only at h
    subst h
    simp only []
    rw [if_pos (by simpa using hne)]
    rfl
  · intro resp h
    unfold UsersServer.Login at h
    generalize UsersServer.findUserByProvidedID db req.Id = p at h ⊢
    obtain ⟨r, d⟩ := p
    cases r with
    | error e => cases h
    | ok usr =>
      simp only [] at h
      by_cases hp : usr.Password = env.sha256Hex req.Password
      · exact ⟨usr, rfl, hp⟩
      · rw [if_pos (by simpa using hp)] at h
        cases h

/-- Witness for C1: an unknown identifier, a faulted store and a wrong password for bob all get
the same reply. -/
theorem Login_uniform_failure_witness :
    (UsersServer.Login sampleEnv (storeOf [bob]) "t" 0 0 0 ⟨"nobody", "Passw0rd"⟩).1 =
        .error ⟨Code.InvalidArgument, "Invalid login/password"⟩ ∧
    (UsersServer.Login sampleEnv (brokenStoreOf [bob]) "t" 0 0 0 ⟨"bob", "Passw0rd"⟩).1 =
        .error ⟨Code.InvalidArgument, "Invalid login/password"⟩ ∧
    (UsersServer.Login sampleEnv (storeOf [bob]) "t" 0 0 0 ⟨"bob", "passw0rd"⟩).1 =
        .error ⟨Code.InvalidArgument, "Invalid login/password"⟩ :=
  ⟨congrArg Prod.fst
      ((Login_uniform_failure sampleEnv (storeOf [bob]) "t" 0 0 0 ⟨"nobody", "Passw0rd"⟩).1 rfl),
    congrArg Prod.fst
      ((Login_uniform_failure sampleEnv (brokenStoreOf [bob]) "t" 0 0 0
        ⟨"bob", "Passw0rd"⟩).2.1 rfl),
    congrArg Prod.fst
      ((Login_uniform_failure sampleEnv (storeOf [bob]) "t" 0 0 0 ⟨"bob", "passw0rd"⟩).2.2.1
        bob.orm.ToPB rfl (by decide))⟩

/-! ## The self-access guard of `Read` and `GetUserCurrencies` -/

theorem guard_true_iff (claims : GameClaims) (id : String) :
    (!claims.IsAdmin && claims.UserId != id && claims.UserName != id && claims.UserEmail != id)
        = true ↔
      (claims.IsAdmin = false ∧ claims.UserId ≠ id ∧ claims.UserName ≠ id ∧
        claims.UserEmail ≠ id) := by
  simp [and_assoc]

theorem Read_denied (db : DB) (claims : GameClaims) (id : String)
    (h : claims.IsAdmin = false ∧ claims.UserId ≠ id ∧ claims.UserName ≠ id ∧
      claims.UserEmail ≠ id) :
    UsersServer.Read db claims id = (.error errNotAuthorized, db) := by
  unfold UsersServer.Read
  rw [if_pos ((guard_true_iff claims id).mpr h)]

theorem Read_allowed (db : DB) (claims : GameClaims) (id : String)
    (h : ¬(claims.IsAdmin = false ∧ claims.UserId ≠ id ∧ claims.UserName ≠ id ∧
      claims.UserEmail ≠ id)) :
    UsersServer.Read db claims id =
      ((UsersServer.findUserByProvidedID db id).1.map UsersServer.hideSensitiveInfo,
        (UsersServer.findUserByProvidedID db id).2) := by
  unfold UsersServer.Read
  rw [if_neg (fun hg => h ((guard_true_iff claims id).mp hg))]
  generalize UsersServer.findUserByProvidedID db id = p
  obtain ⟨r, d⟩ := p
  cases r <;> rfl

theorem GetUserCurrencies_denied (db : DB) (claims : GameClaims) (id : String)
    (h : claims.IsAdmin = false ∧ claims.UserId ≠ id ∧ claims.UserName ≠ id ∧
      claims.UserEmail ≠ id) :
    UsersServer.GetUserCurrencies db claims id = (.error errNotAuthorized, db) := by
  unfold UsersServer.GetUserCurrencies
  rw [if_pos ((guard_true_iff claims id).mpr h)]

theorem GetUserCurrencies_allowed (db : DB) (claims : GameClaims) (id : String)
    (h : ¬(claims.IsAdmin = false ∧ claims.UserId ≠ id ∧ claims.UserName ≠ id ∧
      claims.UserEmail ≠ id)) :
    UsersServer.GetUserCurrencies db claims id =
      ((UsersServer.findUserByProvidedID db id).1.map
          (fun usr => { Coins := usr.Coins, Gems := usr.Gems }),
        (UsersServer.findUserByProvidedID db id).2) := by
  unfold UsersServer.GetUserCurrencies
  rw [if_neg (fun hg => h ((guard_true_iff claims id).mp hg))]
  generalize UsersServer.findUserByProvidedID db id = p
  obtain ⟨r, d⟩ := p
  cases r <;> rfl

theorem map_not_unauthenticated {α β : Type} (f : α → β) (r : Except Status α) (e : Status)
    (hr : ∀ e1, r = .error e1 →
      e1 = ⟨Code.Internal, "Could not find user"⟩ ∨ e1 = ⟨Code.NotFound, "Could not find user"⟩)
    (h : r.map f = .error e) : e.code ≠ Code.Unauthenticated := by
  cases r with
  | error e1 =>
    have h2 : e1 = e := by
      simp only [Except.map] at h
      injection h
    subst h2
    rcases hr e1 rfl with h3 | h3 <;> rw [h3] <;> decide
  | ok a => simp [Except.map] at h

/-- C2. Self-access guard: `Read` and `GetUserCurrencies` return the Unauthenticated error, with
the store and its journal untouched, exactly when the caller is not admin and the identifier
differs from the claimed id, name and email; otherwise each returns what the resolver returns for
the identifier (the account with the password cleared, respectively its balances).  A non-admin
caller with id 42 is let through for 42, and is rejected for 43 unless 43 is its claimed name or
email, which no name and no email that pass the patterns of `Create` is; an admin caller is let
through for every identifier. -/
theorem self_access_guard (db : DB) (claims : GameClaims) (id : String) :
    ((∃ e, (UsersServer.Read db claims id).1 = .error e ∧ e.code = Code.Unauthenticated) ↔
      (claims.IsAdmin = false ∧ claims.UserId ≠ id ∧ claims.UserName ≠ id ∧
        claims.UserEmail ≠ id)) ∧
    ((claims.IsAdmin = false ∧ claims.UserId ≠ id ∧ claims.UserName ≠ id ∧
        claims.UserEmail ≠ id) →
      UsersServer.Read db claims id =
        (.error ⟨Code.Unauthenticated, "Not authorized for another user"⟩, db)) ∧
    (¬(claims.IsAdmin = false ∧ claims.UserId ≠ id ∧ claims.UserName ≠ id ∧
        claims.UserEmail ≠ id) →
      UsersServer.Read db claims id =
        ((UsersServer.findUserByProvidedID db id).1.map UsersServer.hideSensitiveInfo,
          (UsersServer.findUserByProvidedID db id).2)) ∧
    ((∃ e, (UsersServer.GetUserCurrencies db claims id).1 = .error e ∧
        e.code = Code.Unauthenticated) ↔
      (claims.IsAdmin = false ∧ claims.UserId ≠ id ∧ claims.UserName ≠ id ∧
        claims.UserEmail ≠ id)) ∧
    ((claims.IsAdmin = false ∧ claims.UserId ≠ id ∧ claims.UserName ≠ id ∧
        claims.UserEmail ≠ id) →
      UsersServer.GetUserCurrencies db claims id =
        (.error ⟨Code.Unauthenticated, "Not authorized for another user"⟩, db)) ∧
    (¬(claims.IsAdmin = false ∧ claims.UserId ≠ id ∧ claims.UserName ≠ id ∧
        claims.UserEmail ≠ id) →
      UsersServer.GetUserCurrencies db claims id =
        ((UsersServer.findUserByProvidedID db id).1.map
            (fun usr => { Coins := usr.Coins, Gems := usr.Gems }),
          (UsersServer.findUserByProvidedID db id).2)) ∧
    (∀ name email : String,
      UsersServer.Read db (claimsOf "42" name email false) "42" =
        ((UsersServer.findUserByProvidedID db "42").1.map UsersServer.hideSensitiveInfo,
          (UsersServer.findUserByProvidedID db "42").2)) ∧
    (∀ name email : String,
      (UsersServer.Read db (claimsOf "42" name email false) "43" =
          (.error ⟨Code.Unauthenticated, "Not authorized for another user"⟩, db) ↔
        (name ≠ "43" ∧ email ≠ "43"))) ∧
    (∀ name email : String, regexpNameMatch name = true → regexpEmailMatch email = true →
      UsersServer.Read db (claimsOf "42" name email false) "43" =
        (.error ⟨Code.Unauthenticated, "Not authorized for another user"⟩, db)) ∧
    (∀ uid name email target : String,
      UsersServer.Read db (claimsOf uid name email true) target =
        ((UsersServer.findUserByProvidedID db target).1.map UsersServer.hideSensitiveInfo,
          (UsersServer.findUserByProvidedID db target).2)) := by
  have hres : ∀ x e1, (UsersServer.findUserByProvidedID db x).1 = .error e1 →
      e1 = ⟨Code.Internal, "Could not find user"⟩ ∨
        e1 = ⟨Code.NotFound, "Could not find user"⟩ := fun x e1 h => findUser_error db x e1 h
  refine ⟨?_, Read_denied db claims id, Read_allowed db claims id, ?_,
    GetUserCurrencies_denied db claims id, GetUserCurrencies_allowed db claims id, ?_, ?_, ?_,
    ?_⟩
  · constructor
    · rintro ⟨e, he, hc⟩
      by_contra hn
      rw [Read_allowed db claims id hn] at he
      exact map_not_unauthenticated _ _ e (hres id) he hc
    · intro h
      exact ⟨errNotAuthorized, by rw [Read_denied db claims id h], rfl⟩
  · constructor
    · rintro ⟨e, he, hc⟩
      by_contra hn
      rw [GetUserCurrencies_allowed db claims id hn] at he
      exact map_not_unauthenticated _ _ e (hres id) he hc
    · intro h
      exact ⟨errNotAuthorized, by rw [GetUserCurrencies_denied db claims id h], rfl⟩
  · intro name email
    apply Read_allowed
    intro h
    exact h.2.1 rfl
  · intro name email
    constructor
    · intro h
      by_contra hn
      have hallow : ¬((claimsOf "42" name email false).IsAdmin = false ∧
          (claimsOf "42" name email false).UserId ≠ "43" ∧
          (claimsOf "42" name email false).UserName ≠ "43" ∧
          (claimsOf "42" name email false).UserEmail ≠ "43") := by
        intro h4
        exact hn ⟨h4.2.2.1, h4.2.2.2⟩
      rw [Read_allowed db _ "43" hallow] at h
      have h1 := congrArg Prod.fst h
      simp only at h1
      exact map_not_unauthenticated _ _ _ (hres "43") h1 rfl
    · intro h
      have h42 : ("42" : String) ≠ "43" := by decide
      exact Read_denied db _ "43" ⟨rfl, h42, h.1, h.2⟩
  · intro name email hn he
    have h42 : ("42" : String) ≠ "43" := by decide
    have hname : name ≠ "43" := by
      intro hc
      rw [hc] at hn
      exact absurd hn (by decide)
    have hemail : email ≠ "43" := by
      intro hc
      rw [hc] at he
      exact absurd he (by decide)
    exact Read_denied db _ "43" ⟨rfl, h42, hname, hemail⟩
  · intro uid name email target
    apply Read_allowed
    intro h
    cases h.1

/-- Witness for C2: bob, not admin, reads his own account by name and is refused alice. -/
theorem self_access_guard_witness :
    UsersServer.Read (storeOf [bob, alice]) (claimsOf "1" "bob" "b@x.com" false) "alice" =
        (.error ⟨Code.Unauthenticated, "Not authorized for another user"⟩,
          storeOf [bob, alice]) ∧
    (UsersServer.Read (storeOf [bob, alice]) (claimsOf "1" "bob" "b@x.com" false) "bob").1 =
        .ok (UsersServer.hideSensitiveInfo bob.orm.ToPB) :=
  ⟨(self_access_guard (storeOf [bob, alice]) (claimsOf "1" "bob" "b@x.com" false) "alice").2.1
      ⟨rfl, by decide, by decide, by decide⟩,
    congrArg Prod.fst
      ((self_access_guard (storeOf [bob, alice]) (claimsOf "1" "bob" "b@x.com" false)
        "bob").2.2.1 (fun h => h.2.2.1 rfl))⟩

/-! ## Delete -/

theorem Delete_denied (db : DB) (claims : GameClaims) (id : String)
    (h1 : claims.IsAdmin = false) (h2 : claims.UserId ≠ id) :
    UsersServer.Delete db claims id = (.error errNotAuthorized, db) := by
  unfold UsersServer.Delete
  rw [if_pos (by simp [h1, h2])]

theorem Delete_allowed (db : DB) (claims : GameClaims) (id : String)
    (h : claims.IsAdmin = true ∨ claims.UserId = id) :
    UsersServer.Delete db claims id =
      if db.fault db.journal (Query.delete id) then
        (.error ⟨Code.Internal, "Could not delete user"⟩, db.record (Query.delete id))
      else
        (.ok (),
          { db.record (Query.delete id) with
            rows := db.rows.filter (fun r => !decide (r.orm.Id = id)) }) := by
  unfold UsersServer.Delete
  have hg : ¬((!claims.IsAdmin && claims.UserId != id) = true) := by
    rcases h with h | h <;> simp [h]
  rw [if_neg hg]
  unfold DB.Delete
  by_cases hf : db.fault db.journal (Query.delete id) = true
  · simp [hf]
  · simp [hf]

theorem Delete_rows_subset (db : DB) (claims : GameClaims) (id : String) (r : UserRow)
    (hr : r ∈ db.rows) (hid : r.orm.Id ≠ id) : r ∈ (UsersServer.Delete db claims id).2.rows := by
  by_cases h : claims.IsAdmin = true ∨ claims.UserId = id
  · rw [Delete_allowed db claims id h]
    split
    · exact hr
    · simp only [List.mem_filter]
      exact ⟨hr, by simpa using hid⟩
  · have h1 : claims.IsAdmin = false := by
      cases hA : claims.IsAdmin with
      | false => rfl
      | true => exact absurd (Or.inl hA) h
    have h2 : claims.UserId ≠ id := fun hc => h (Or.inr hc)
    rw [Delete_denied db claims id h1 h2]
    exact hr

/-- C3. Delete is guarded by exact id and is idempotent: a caller that is not admin and whose
claimed id differs from the target (whatever its claimed name and email) gets the Unauthenticated
error and the store is untouched; otherwise, when the store access is not faulted, `Delete`
returns success and the table keeps exactly the rows whose id differs from the target, hence
all of them when no row has that id; a second `Delete` then succeeds again and leaves the table
as the first left it; a non-admin caller never removes a row whose id is not its claimed id. -/
theorem Delete_guard_idempotent (db : DB) (claims : GameClaims) (id : String) :
    (claims.IsAdmin = false → claims.UserId ≠ id →
      UsersServer.Delete db claims id =
        (.error ⟨Code.Unauthenticated, "Not authorized for another user"⟩, db)) ∧
    ((claims.IsAdmin = true ∨ claims.UserId = id) →
      db.fault db.journal (Query.delete id) = false →
      (UsersServer.Delete db claims id).1 = .ok () ∧
      (UsersServer.Delete db claims id).2.rows =
        db.rows.filter (fun r => decide (r.orm.Id ≠ id)) ∧
      (∀ r, r ∈ (UsersServer.Delete db claims id).2.rows ↔ (r ∈ db.rows ∧ r.orm.Id ≠ id)) ∧
      ((∀ r ∈ db.rows, r.orm.Id ≠ id) → (UsersServer.Delete db claims id).2.rows = db.rows)) ∧
    ((claims.IsAdmin = true ∨ claims.UserId = id) →
      db.fault db.journal (Query.delete id) = false →
      (UsersServer.Delete db claims id).2.fault (UsersServer.Delete db claims id).2.journal
        (Query.delete id) = false →
      (UsersServer.Delete db claims id).1 = .ok () ∧
      (UsersServer.Delete (UsersServer.Delete db claims id).2 claims id).1 = .ok () ∧
      (UsersServer.Delete (UsersServer.Delete db claims id).2 claims id).2.rows =
        (UsersServer.Delete db claims id).2.rows) ∧
    (claims.IsAdmin = false → ∀ r ∈ db.rows, r.orm.Id ≠ claims.UserId →
      r ∈ (UsersServer.Delete db claims id).2.rows) := by
  have hfilter : (fun r : UserRow => !decide (r.orm.Id = id)) =
      (fun r : UserRow => decide (r.orm.Id ≠ id)) := by
    funext r
    simp
  have hone : ∀ d : DB, (claims.IsAdmin = true ∨ claims.UserId = id) →
      d.fault d.journal (Query.delete id) = false →
      (UsersServer.Delete d claims id).1 = .ok () ∧
      (UsersServer.Delete d claims id).2.rows =
        d.rows.filter (fun r => decide (r.orm.Id ≠ id)) := by
    intro d h hf
    rw [Delete_allowed d claims id h, hf]
    simp only [Bool.false_eq_true, if_false, hfilter]
    constructor <;> trivial
  refine ⟨Delete_denied db claims id, ?_, ?_, ?_⟩
  · intro h hf
    obtain ⟨h1, h2⟩ := hone db h hf
    refine ⟨h1, h2, ?_, ?_⟩
    · intro r
      rw [h2]
      simp [List.mem_filter]
    · intro hall
      rw [h2]
      apply List.filter_eq_self.mpr
      intro r hr
      simpa using hall r hr
  · intro h hf hf2
    obtain ⟨h1, h2⟩ := hone db h hf
    obtain ⟨h3, h4⟩ := hone _ h hf2
    refine ⟨h1, h3, ?_⟩
    rw [h4, h2, List.filter_filter]
    simp
  · intro hA r hr hid
    by_cases hc : claims.UserId = id
    · exact Delete_rows_subset db claims id r hr (by rw [← hc]; exact hid)
    · rw [Delete_denied db claims id hA hc]
      exact hr

/-- Witness for C3: bob may not delete alice by id, nor by his own name; deleting his own id
twice succeeds twice and leaves alice. -/
theorem Delete_guard_idempotent_witness :
    UsersServer.Delete (storeOf [bob, alice]) (claimsOf "1" "bob" "b@x.com" false) "2" =
        (.error ⟨Code.Unauthenticated, "Not authorized for another user"⟩,
          storeOf [bob, alice]) ∧
    UsersServer.Delete (storeOf [bob, alice]) (claimsOf "1" "bob" "b@x.com" false) "bob" =
        (.error ⟨Code.Unauthenticated, "Not authorized for another user"⟩,
          storeOf [bob, alice]) ∧
    (UsersServer.Delete (storeOf [bob, alice]) (claimsOf "1" "bob" "b@x.com" false) "1").2.rows =
        [alice] ∧
    (UsersServer.Delete
        (UsersServer.Delete (storeOf [bob, alice]) (claimsOf "1" "bob" "b@x.com" false) "1").2
        (claimsOf "1" "bob" "b@x.com" false) "1").2.rows = [alice] ∧
    alice ∈ (UsersServer.Delete (storeOf [bob, alice]) (claimsOf "1" "bob" "b@x.com" false)
        "2").2.rows :=
  ⟨(Delete_guard_idempotent (storeOf [bob, alice]) (claimsOf "1" "bob" "b@x.com" false) "2").1
      rfl (by decide),
    (Delete_guard_idempotent (storeOf [bob, alice]) (claimsOf "1" "bob" "b@x.com" false) "bob").1
      rfl (by decide),
    ((Delete_guard_idempotent (storeOf [bob, alice]) (claimsOf "1" "bob" "b@x.com" false)
      "1").2.1 (Or.inr rfl) rfl).2.1,
    ((Delete_guard_idempotent (storeOf [bob, alice]) (claimsOf "1" "bob" "b@x.com" false)
      "1").2.2.1 (Or.inr rfl) rfl rfl).2.2,
    (Delete_guard_idempotent (storeOf [bob, alice]) (claimsOf "1" "bob" "b@x.com" false)
      "2").2.2.2 rfl alice (List.mem_cons_of_mem _ (List.mem_singleton.mpr rfl)) (by decide)⟩

/-! ## Create -/

theorem Create_unfold (env : Env) (db : DB) (userID : String) (req : CreateUserRequest) :
    UsersServer.Create env db userID req =
      if regexpNameMatch req.Name = false then
        (.error ⟨Code.InvalidArgument, msgNamePattern⟩, db)
      else if req.Name.utf8ByteSize < 4 then (.error ⟨Code.InvalidArgument, msgNameLength⟩, db)
      else if regexpEmailMatch req.Email = false then
        (.error ⟨Code.InvalidArgument, msgEmail⟩, db)
      else if verifyPassword env.unicode req.Password ≠ (true, true, true) then
        (.error ⟨Code.InvalidArgument, msgPassword⟩, db)
      else
        match (db.First Column.name req.Name).1 with
        | .ok _ =>
          (.error ⟨Code.InvalidArgument, msgNameExists⟩,
            db.record (Query.first Column.name req.Name))
        | .error .other =>
          (.error ⟨Code.Internal, msgCreateInternal⟩,
            db.record (Query.first Column.name req.Name))
        | .error .ErrRecordNotFound =>
          match ((db.record (Query.first Column.name req.Name)).First Column.email req.Email).1
          with
          | .ok _ =>
            (.error ⟨Code.InvalidArgument, msgEmailExists⟩,
              (db.record (Query.first Column.name req.Name)).record
                (Query.first Column.email req.Email))
          | .error .other =>
            (.error ⟨Code.Internal, msgCreateInternal⟩,
              (db.record (Query.first Column.name req.Name)).record
                (Query.first Column.email req.Email))
          | .error .ErrRecordNotFound =>
            UsersServer.CreateInsert env
              ((db.record (Query.first Column.name req.Name)).record
                (Query.first Column.email req.Email)) userID req := by
  unfold UsersServer.Create
  by_cases h1 : regexpNameMatch req.Name = false
  · simp [h1]
  · have h1t : regexpNameMatch req.Name = true := by simpa using h1
    rw [if_neg (by simp [h1t]), if_neg h1]
    by_cases h2 : req.Name.utf8ByteSize < 4
    · rw [if_pos h2, if_pos h2]
    · rw [if_neg h2, if_neg h2]
      by_cases h3 : regexpEmailMatch req.Email = false
      · simp [h3]
      · have h3t : regexpEmailMatch req.Email = true := by simpa using h3
        rw [if_neg (by simp [h3t]), if_neg h3]
        rcases hv : verifyPassword env.unicode req.Password with ⟨ok1, ok2, ok3⟩
        simp only []
        by_cases h4 : (ok1, ok2, ok3) = (true, true, true)
        · injection h4 with ha hb
          injection hb with hb hc
          subst ha hb hc
          simp only [Bool.not_true, Bool.or_self, Bool.false_eq_true, if_false, ne_eq,
            not_true_eq_false]
          have hs1 := First_snd db Column.name req.Name
          generalize db.First Column.name req.Name = p1 at hs1 ⊢
          obtain ⟨r1, d1⟩ := p1
          simp only at hs1
          subst hs1
          cases r1 with
          | ok u => rfl
          | error e1 =>
            cases e1
            · simp only []
              have hs2 := First_snd (db.record (Query.first Column.name req.Name)) Column.email
                req.Email
              generalize (db.record (Query.first Column.name req.Name)).First Column.email
                req.Email = p2 at hs2 ⊢
              obtain ⟨r2, d2⟩ := p2
              simp only at hs2
              subst hs2
              cases r2 with
              | ok u => rfl
              | error e2 => cases e2 <;> rfl
            · rfl
        · rw [if_pos h4]
          have : (!ok1 || !ok2 || !ok3) = true := by
            cases ok1 <;> cases ok2 <;> cases ok3 <;> simp at h4 ⊢
          rw [if_pos this]

theorem CreateInsert_eq (env : Env) (db : DB) (userID : String) (req : CreateUserRequest) :
    UsersServer.CreateInsert env db userID req =
      if db.fault db.journal
            (Query.create
              { Id := userID, Email := req.Email, Name := req.Name,
                Password := env.sha256Hex req.Password,
                Stats := some { Games := 0, Wins := 0, Top5 := 0, Kills := 0 },
                Coins := 0, Gems := 0 }) = true ∨
          (db.rows.any fun r => decide (r.orm.Id = userID)) = true then
        (.error ⟨Code.Internal, msgCreateInternal⟩,
          db.record
            (Query.create
              { Id := userID, Email := req.Email, Name := req.Name,
                Password := env.sha256Hex req.Password,
                Stats := some { Games := 0, Wins := 0, Top5 := 0, Kills := 0 },
                Coins := 0, Gems := 0 }))
      else
        (.ok { Id := userID, Name := req.Name, Email := req.Email, Password := "",
               Stats := some { Games := 0, Wins := 0, Top5 := 0, Kills := 0 },
               Coins := 0, Gems := 0 },
          { rows :=
              db.rows ++
                [{ orm := { Id := userID, Email := req.Email, Name := req.Name,
                            Password := env.sha256Hex req.Password,
                            Stats := some { Games := 0, Wins := 0, Top5 := 0, Kills := 0 },
                            Coins := 0, Gems := 0 },
                   is_admin := false }],
            journal :=
              db.journal ++
                [Query.create
                  { Id := userID, Email := req.Email, Name := req.Name,
                    Password := env.sha256Hex req.Password,
                    Stats := some { Games := 0, Wins := 0, Top5 := 0, Kills := 0 },
                    Coins := 0, Gems := 0 }],
            fault := db.fault }) := by
  unfold UsersServer.CreateInsert DB.Create
  simp only []
  by_cases hf : db.fault db.journal
      (Query.create
        { Id := userID, Email := req.Email, Name := req.Name,
          Password := env.sha256Hex req.Password,
          Stats := some { Games := 0, Wins := 0, Top5 := 0, Kills := 0 },
          Coins := 0, Gems := 0 }) = true
  · rw [if_pos hf, if_pos (Or.inl hf)]
  · rw [if_neg hf]
    by_cases hd : (db.rows.any fun r => decide (r.orm.Id = userID)) = true
    · rw [if_pos hd, if_pos (Or.inr hd)]
    · rw [if_neg hd, if_neg (by tauto)]
      rfl

theorem CreateInsert_rows (env : Env) (db : DB) (userID : String) (req : CreateUserRequest)
    (e : Status) (h : (UsersServer.CreateInsert env db userID req).1 = .error e) :
    (UsersServer.CreateInsert env db userID req).2.rows = db.rows := by
  rw [CreateInsert_eq] at h ⊢
  split
  · rfl
  · rename_i hn
    rw [if_neg hn] at h
    cases h

theorem CreateInsert_ok (env : Env) (db : DB) (userID : String) (req : CreateUserRequest)
    (u : User) (h : (UsersServer.CreateInsert env db userID req).1 = .ok u) :
    u = { Id := userID, Name := req.Name, Email := req.Email, Password := "",
          Stats := some { Games := 0, Wins := 0, Top5 := 0, Kills := 0 },
          Coins := 0, Gems := 0 } ∧
    (UsersServer.CreateInsert env db userID req).2.rows =
      db.rows ++
        [{ orm := { Id := userID, Email := req.Email, Name := req.Name,
                    Password := env.sha256Hex req.Password,
                    Stats := some { Games := 0, Wins := 0, Top5 := 0, Kills := 0 },
                    Coins := 0, Gems := 0 },
           is_admin := false }] := by
  rw [CreateInsert_eq] at h ⊢
  split
  · rename_i hp
    rw [if_pos hp] at h
    cases h
  · rename_i hn
    rw [if_neg hn] at h
    injection h with h
    exact ⟨h.symm, rfl⟩

theorem isAlphanum_ascii (c : Char) (h : c.isAlphanum = true) : c.val.toNat ≤ 127 := by
  simp only [Char.isAlphanum, Char.isAlpha, Char.isUpper, Char.isLower, Char.isDigit,
    Bool.or_eq_true, Bool.and_eq_true, decide_eq_true_eq] at h
  rcases h with (⟨_, h⟩ | ⟨_, h⟩) | ⟨_, h⟩
  · have e : c.val.toNat ≤ 90 := h
    omega
  · have e : c.val.toNat ≤ 122 := h
    omega
  · have e : c.val.toNat ≤ 57 := h
    omega

theorem utf8Size_ascii (c : Char) (h : c.val.toNat ≤ 127) : c.utf8Size = 1 := by
  unfold Char.utf8Size
  have h2 : c.val ≤ UInt32.ofNatCore 127 (by decide) := h
  simp only []
  rw [if_pos h2]

theorem utf8ByteSize_go_ascii (l : List Char) (h : ∀ c ∈ l, c.val.toNat ≤ 127) :
    String.utf8ByteSize.go l = l.length := by
  induction l with
  | nil => rfl
  | cons c cs ih =>
    simp only [String.utf8ByteSize.go, List.length_cons]
    rw [ih (fun x hx => h x (List.mem_cons_of_mem _ hx)),
      utf8Size_ascii c (h c (List.mem_cons_self _ _))]

/-- A name the pattern accepts is ASCII, so its length in bytes (Go `len`) is its length in
characters. -/
theorem regexpNameMatch_len (s : String) (h : regexpNameMatch s = true) :
    s.utf8ByteSize = s.length := by
  obtain ⟨l⟩ := s
  show String.utf8ByteSize.go l = l.length
  apply utf8ByteSize_go_ascii
  unfold regexpNameMatch at h
  simp only [String.toList] at h
  cases l with
  | nil => simp at h
  | cons c cs =>
    simp only [Bool.and_eq_true, List.all_eq_true] at h
    intro x hx
    rcases List.mem_cons.mp hx with hx | hx
    · subst hx
      apply isAlphanum_ascii
      simp [Char.isAlphanum, h.1.1]
    · exact isAlphanum_ascii x (h.2 x hx)

/-- C6. Register reports the first failing check and changes nothing on failure: `Create` tests,
in this order, the name pattern, the name length (at least 4), the email pattern, the three
password flags, that no account has the name, that no account has the email, and returns the
InvalidArgument error of the first test that fails, the six messages being pairwise distinct;
when one of the first four fails the store is not accessed at all, and whenever `Create` returns
an error the table is unchanged.  The name Ann1 passes both name checks, 1Ann gets the pattern
message and Ann the length message, whatever the email and the password. -/
theorem Create_first_failing_check (env : Env) (db : DB) (userID : String)
    (req : CreateUserRequest) :
    (regexpNameMatch req.Name = false →
      UsersServer.Create env db userID req =
        (.error ⟨Code.InvalidArgument, msgNamePattern⟩, db)) ∧
    (regexpNameMatch req.Name = true → req.Name.length < 4 →
      UsersServer.Create env db userID req =
        (.error ⟨Code.InvalidArgument, msgNameLength⟩, db)) ∧
    (regexpNameMatch req.Name = true → 4 ≤ req.Name.length →
      regexpEmailMatch req.Email = false →
      UsersServer.Create env db userID req = (.error ⟨Code.InvalidArgument, msgEmail⟩, db)) ∧
    (regexpNameMatch req.Name = true → 4 ≤ req.Name.length →
      regexpEmailMatch req.Email = true →
      verifyPassword env.unicode req.Password ≠ (true, true, true) →
      UsersServer.Create env db userID req =
        (.error ⟨Code.InvalidArgument, msgPassword⟩, db)) ∧
    (regexpNameMatch req.Name = true → 4 ≤ req.Name.length →
      regexpEmailMatch req.Email = true →
      verifyPassword env.unicode req.Password = (true, true, true) →
      ∀ u, (db.First Column.name req.Name).1 = .ok u →
      UsersServer.Create env db userID req =
        (.error ⟨Code.InvalidArgument, msgNameExists⟩, (db.First Column.name req.Name).2)) ∧
    (regexpNameMatch req.Name = true → 4 ≤ req.Name.length →
      regexpEmailMatch req.Email = true →
      verifyPassword env.unicode req.Password = (true, true, true) →
      (db.First Column.name req.Name).1 = .error .ErrRecordNotFound →
      ∀ u, ((db.First Column.name req.Name).2.First Column.email req.Email).1 = .ok u →
      UsersServer.Create env db userID req =
        (.error ⟨Code.InvalidArgument, msgEmailExists⟩,
          ((db.First Column.name req.Name).2.First Column.email req.Email).2)) ∧
    (regexpNameMatch req.Name = true → 4 ≤ req.Name.length →
      regexpEmailMatch req.Email = true →
      verifyPassword env.unicode req.Password = (true, true, true) →
      db.fault db.journal (Query.first Column.name req.Name) = false →
      (∃ r ∈ db.rows, r.orm.Name = req.Name) →
      (UsersServer.Create env db userID req).1 =
        .error ⟨Code.InvalidArgument, msgNameExists⟩) ∧
    (regexpNameMatch req.Name = true → 4 ≤ req.Name.length →
      regexpEmailMatch req.Email = true →
      verifyPassword env.unicode req.Password = (true, true, true) →
      db.fault db.journal (Query.first Column.name req.Name) = false →
      db.fault (db.journal ++ [Query.first Column.name req.Name])
        (Query.first Column.email req.Email) = false →
      (∀ r ∈ db.rows, r.orm.Name ≠ req.Name) →
      (∃ r ∈ db.rows, r.orm.Email = req.Email) →
      (UsersServer.Create env db userID req).1 =
        .error ⟨Code.InvalidArgument, msgEmailExists⟩) ∧
    [msgNamePattern, msgNameLength, msgEmail, msgPassword, msgNameExists,
      msgEmailExists].Nodup ∧
    (∀ e, (UsersServer.Create env db userID req).1 = .error e →
      (UsersServer.Create env db userID req).2.rows = db.rows) ∧
    (regexpNameMatch "Ann1" = true ∧ 4 ≤ "Ann1".length) ∧
    (∀ email password : String,
      UsersServer.Create env db userID ⟨"1Ann", email, password⟩ =
        (.error ⟨Code.InvalidArgument, msgNamePattern⟩, db)) ∧
    (∀ email password : String,
      UsersServer.Create env db userID ⟨"Ann", email, password⟩ =
        (.error ⟨Code.InvalidArgument, msgNameLength⟩, db)) := by
  have hlen : regexpNameMatch req.Name = true → req.Name.utf8ByteSize = req.Name.length :=
    regexpNameMatch_len req.Name
  simp only [First_snd]
  refine ⟨?_, ?_, ?_, ?_, ?_, ?_, ?_, ?_, by decide, ?_, ⟨by decide, by decide⟩, ?_, ?_⟩
  · intro h1
    rw [Create_unfold, if_pos h1]
  · intro h1 h2
    rw [Create_unfold, if_neg (by simp [h1]), if_pos (by rw [hlen h1]; exact h2)]
  · intro h1 h2 h3
    rw [Create_unfold, if_neg (by simp [h1]), if_neg (by rw [hlen h1]; omega), if_pos h3]
  · intro h1 h2 h3 h4
    rw [Create_unfold, if_neg (by simp [h1]), if_neg (by rw [hlen h1]; omega),
      if_neg (by simp [h3]), if_pos h4]
  · intro h1 h2 h3 h4 u h5
    rw [Create_unfold, if_neg (by simp [h1]), if_neg (by rw [hlen h1]; omega),
      if_neg (by simp [h3]), if_neg (by simp [h4]), h5]
  · intro h1 h2 h3 h4 h5 u h6
    rw [Create_unfold, if_neg (by simp [h1]), if_neg (by rw [hlen h1]; omega),
      if_neg (by simp [h3]), if_neg (by simp [h4]), h5]
    simp only []
    rw [h6]
  · intro h1 h2 h3 h4 hf hex
    obtain ⟨u, hu⟩ := First_found db Column.name req.Name hf hex
    rw [Create_unfold, if_neg (by simp [h1]), if_neg (by rw [hlen h1]; omega),
      if_neg (by simp [h3]), if_neg (by simp [h4]), hu]
  · intro h1 h2 h3 h4 hf hf2 hno hex
    have hnf : (db.First Column.name req.Name).1 = .error .ErrRecordNotFound :=
      (First_notFound db Column.name req.Name).mpr
        ⟨hf, (selectFirst_eq_none _ _ _).mpr hno⟩
    obtain ⟨u, hu⟩ := First_found (db.record (Query.first Column.name req.Name)) Column.email
      req.Email hf2 hex
    rw [Create_unfold, if_neg (by simp [h1]), if_neg (by rw [hlen h1]; omega),
      if_neg (by simp [h3]), if_neg (by simp [h4]), hnf]
    simp only []
    rw [hu]
  · intro e h
    rw [Create_unfold] at h ⊢
    split
    · rfl
    · split
      · rfl
      · split
        · rfl
        · split
          · rfl
          · rename_i n1 n2 n3 n4
            rw [if_neg n1, if_neg n2, if_neg n3, if_neg n4] at h
            split
            · rfl
            · rfl
            · rename_i h5
              rw [h5] at h
              simp only [] at h
              split
              · rfl
              · rfl
              · rename_i h6
                rw [h6] at h
                simp only [] at h
                rw [CreateInsert_rows _ _ _ _ e h]
                rfl
  · intro email password
    have h1 : regexpNameMatch "1Ann" = false := by decide
    rw [Create_unfold, if_pos h1]
  · intro email password
    have h1 : ¬regexpNameMatch "Ann" = false := by decide
    have h2 : "Ann".utf8ByteSize < 4 := by decide
    rw [Create_unfold, if_neg h1, if_pos h2]

/-- Witness for C6: taken names and emails, and a weak password, each with its own message. -/
theorem Create_first_failing_check_witness :
    (UsersServer.Create sampleEnv (storeOf [bob]) "3" ⟨"bobby", "b@x.com", "Passw0rd"⟩).1 =
        .error ⟨Code.InvalidArgument, "User with such email already exists"⟩ ∧
    (UsersServer.Create sampleEnv (storeOf [bob, alice]) "3"
        ⟨"alice", "c@x.com", "Passw0rd"⟩).1 =
        .error ⟨Code.InvalidArgument, "User with such name already exists"⟩ ∧
    UsersServer.Create sampleEnv (storeOf [bob]) "3" ⟨"carol", "c@x.com", "password"⟩ =
        (.error ⟨Code.InvalidArgument, msgPassword⟩, storeOf [bob]) ∧
    UsersServer.Create sampleEnv (storeOf [bob]) "3" ⟨"carol", "c.x.com", "Passw0rd"⟩ =
        (.error ⟨Code.InvalidArgument, "Invalid email provided"⟩, storeOf [bob]) :=
  ⟨congrArg Prod.fst
      ((Create_first_failing_check sampleEnv (storeOf [bob]) "3"
        ⟨"bobby", "b@x.com", "Passw0rd"⟩).2.2.2.2.2.1 (by decide) (by decide) (by decide)
        (by decide) rfl bob.orm rfl),
    congrArg Prod.fst
      ((Create_first_failing_check sampleEnv (storeOf [bob, alice]) "3"
        ⟨"alice", "c@x.com", "Passw0rd"⟩).2.2.2.2.1 (by decide) (by decide) (by decide)
        (by decide) alice.orm rfl),
    (Create_first_failing_check sampleEnv (storeOf [bob]) "3"
      ⟨"carol", "c@x.com", "password"⟩).2.2.2.1 (by decide) (by decide) (by decide) (by decide),
    (Create_first_failing_check sampleEnv (storeOf [bob]) "3"
      ⟨"carol", "c.x.com", "Passw0rd"⟩).2.2.1 (by decide) (by decide) (by decide)⟩

/-! ## The password digest in replies -/

theorem scanStatsRows_password (rows : List (Option StatsScan)) (users : List User)
    (h : scanStatsRows rows = some users) : ∀ u ∈ users, u.Password = "" := by
  induction rows generalizing users with
  | nil =>
    simp only [scanStatsRows, Option.some.injEq] at h
    subst h
    simp
  | cons r rest ih =>
    cases r with
    | none => simp [scanStatsRows] at h
    | some r =>
      simp only [scanStatsRows] at h
      cases hrest : scanStatsRows rest with
      | none => simp [hrest] at h
      | some us =>
        simp only [hrest, Option.some.injEq] at h
        subst h
        intro u hu
        rcases List.mem_cons.mp hu with hu | hu
        · rw [hu]
        · exact ih us hrest u hu

theorem ListDefault_password (env : Env) (db : DB) (claims : GameClaims)
    (req : ListUsersRequest) (users : List User)
    (h : (UsersServer.ListDefault env db claims req).1 = .ok users) :
    ∀ u ∈ users, u.Password = "" := by
  unfold UsersServer.ListDefault at h
  split at h
  · cases h
  · simp only [] at h
    split at h
    · cases h
    · split at h
      · cases h
      · injection h with h
        subst h
        intro u hu
        obtain ⟨v, _, hv⟩ := List.mem_map.mp hu
        rw [← hv]
        rfl

theorem List_password (env : Env) (db : DB) (claims : GameClaims) (req : ListUsersRequest)
    (users : List User) (h : (UsersServer.List env db claims req).1 = .ok users) :
    ∀ u ∈ users, u.Password = "" := by
  unfold UsersServer.List at h
  split at h
  · exact ListDefault_password env db claims req users h
  · simp only [] at h
    split at h
    · split at h
      · cases h
      · split at h
        · cases h
        · split at h
          · cases h
          · rename_i us hs
            injection h with h
            subst h
            exact scanStatsRows_password _ _ hs
    · exact ListDefault_password env db claims req users h

theorem Create_ok (env : Env) (db : DB) (userID : String) (req : CreateUserRequest) (u : User)
    (h : (UsersServer.Create env db userID req).1 = .ok u) :
    u = { Id := userID, Name := req.Name, Email := req.Email, Password := "",
          Stats := some { Games := 0, Wins := 0, Top5 := 0, Kills := 0 },
          Coins := 0, Gems := 0 } ∧
    (UsersServer.Create env db userID req).2.rows =
      db.rows ++
        [{ orm := { Id := userID, Email := req.Email, Name := req.Name,
                    Password := env.sha256Hex req.Password,
                    Stats := some { Games := 0, Wins := 0, Top5 := 0, Kills := 0 },
                    Coins := 0, Gems := 0 },
           is_admin := false }] := by
  rw [Create_unfold] at h ⊢
  split
  · rename_i c; rw [if_pos c] at h; cases h
  · split
    · rename_i c1 c2; rw [if_neg c1, if_pos c2] at h; cases h
    · split
      · rename_i c1 c2 c3; rw [if_neg c1, if_neg c2, if_pos c3] at h; cases h
      · split
        · rename_i c1 c2 c3 c4; rw [if_neg c1, if_neg c2, if_neg c3, if_pos c4] at h; cases h
        · rename_i c1 c2 c3 c4
          rw [if_neg c1, if_neg c2, if_neg c3, if_neg c4] at h
          split
          · rename_i h5; rw [h5] at h; cases h
          · rename_i h5; rw [h5] at h; cases h
          · rename_i h5
            rw [h5] at h
            simp only [] at h
            split
            · rename_i h6; rw [h6] at h; cases h
            · rename_i h6; rw [h6] at h; cases h
            · rename_i h6
              rw [h6] at h
              simp only [] at h
              exact CreateInsert_ok env _ userID req u h

/-- Counterexample to C7: registering carol stores her record with empty stats and returns it
with the password cleared; when carol then reads her account, the reply has the stats unset, so
it is not the stored record with the password cleared: the stats field of the account `Read`
returns differs from the stored record's. -/
theorem Read_stats_not_loaded :
    (UsersServer.Create sampleEnv (storeOf [bob]) "3" ⟨"carol", "c@x.com", "Passw0rd"⟩).1 =
      .ok { carol.orm.ToPB with Password := "" } ∧
    (UsersServer.Create sampleEnv (storeOf [bob]) "3"
      ⟨"carol", "c@x.com", "Passw0rd"⟩).2.rows = [bob, carol] ∧
    carol.orm.Stats = some { Games := 0, Wins := 0, Top5 := 0, Kills := 0 } ∧
    (UsersServer.Read
        (UsersServer.Create sampleEnv (storeOf [bob]) "3" ⟨"carol", "c@x.com", "Passw0rd"⟩).2
        (claimsOf "3" "carol" "c@x.com" false) "3").1 =
      .ok { Id := "3", Name := "carol", Email := "c@x.com", Password := "", Stats := none,
            Coins := 0, Gems := 0 } ∧
    ¬(∃ r ∈ (UsersServer.Create sampleEnv (storeOf [bob]) "3"
          ⟨"carol", "c@x.com", "Passw0rd"⟩).2.rows,
        (UsersServer.Read
            (UsersServer.Create sampleEnv (storeOf [bob]) "3"
              ⟨"carol", "c@x.com", "Passw0rd"⟩).2
            (claimsOf "3" "carol" "c@x.com" false) "3").1 =
          .ok { r.orm.ToPB with Password := "" }) := by
  refine ⟨rfl, rfl, rfl, rfl, ?_⟩
  rintro ⟨r, hr, h⟩
  have hrows : (UsersServer.Create sampleEnv (storeOf [bob]) "3"
      ⟨"carol", "c@x.com", "Passw0rd"⟩).2.rows = [bob, carol] := rfl
  rw [hrows] at hr
  have hread : (UsersServer.Read
      (UsersServer.Create sampleEnv (storeOf [bob]) "3" ⟨"carol", "c@x.com", "Passw0rd"⟩).2
      (claimsOf "3" "carol" "c@x.com" false) "3").1 =
      .ok { Id := "3", Name := "carol", Email := "c@x.com", Password := "", Stats := none,
            Coins := 0, Gems := 0 } := rfl
  rw [hread] at h
  injection h with h
  rcases List.mem_cons.mp hr with h1 | h1
  · subst h1
    exact absurd h (by decide)
  · rw [List.mem_singleton.mp h1] at h
    exact absurd h (by decide)

/-- C7, amended. The password digest never leaves the engine: an account in a successful reply
of `Create`, `Read` or `List` (on the default path and on the stats-ordered path) has an empty
password field.  The account `Create` returns has the generated id, the requested name and
email and zero coin and gem balances, and is the record it appended to the table (whose password
field holds the digest) with the password cleared.  The account `Read` returns is the stored
record the identifier resolves to with the password cleared and the stats unset: id, name,
email, coins and gems are the stored ones, the stats are not loaded by the lookup. -/
theorem password_never_returned (env : Env) (db : DB) (claims : GameClaims) (userID : String)
    (creq : CreateUserRequest) (id : String) (lreq : ListUsersRequest) :
    (∀ u d, UsersServer.Create env db userID creq = (.ok u, d) →
      u.Password = "" ∧ u.Id = userID ∧ u.Name = creq.Name ∧ u.Email = creq.Email ∧
      u.Coins = 0 ∧ u.Gems = 0 ∧
      ∃ r, d.rows = db.rows ++ [r] ∧ r.orm.Password = env.sha256Hex creq.Password ∧
        u = { r.orm.ToPB with Password := "" }) ∧
    (∀ u d, UsersServer.Read db claims id = (.ok u, d) →
      u.Password = "" ∧
      ∃ r, resolveRow db.rows id = some r ∧ r ∈ db.rows ∧
        u = { r.orm.ToPB with Password := "", Stats := none } ∧
        u.Id = r.orm.Id ∧ u.Name = r.orm.Name ∧ u.Email = r.orm.Email ∧
        u.Coins = r.orm.Coins ∧ u.Gems = r.orm.Gems) ∧
    (∀ us d, UsersServer.List env db claims lreq = (.ok us, d) → ∀ u ∈ us, u.Password = "") ∧
    (∀ us d, UsersServer.ListDefault env db claims lreq = (.ok us, d) →
      ∀ u ∈ us, u.Password = "") := by
  refine ⟨?_, ?_, ?_, ?_⟩
  · intro u d h
    have h1 : (UsersServer.Create env db userID creq).1 = .ok u := by rw [h]
    obtain ⟨hu, hrows⟩ := Create_ok env db userID creq u h1
    rw [h] at hrows
    simp only at hrows
    subst hu
    refine ⟨rfl, rfl, rfl, rfl, rfl, rfl, ?_⟩
    exact ⟨{ orm := { Id := userID, Email := creq.Email, Name := creq.Name,
                      Password := env.sha256Hex creq.Password,
                      Stats := some { Games := 0, Wins := 0, Top5 := 0, Kills := 0 },
                      Coins := 0, Gems := 0 },
             is_admin := false }, hrows, rfl, rfl⟩
  · intro u d h
    by_cases hg : (claims.IsAdmin = false ∧ claims.UserId ≠ id ∧ claims.UserName ≠ id ∧
        claims.UserEmail ≠ id)
    · rw [Read_denied db claims id hg] at h
      cases h
    · rw [Read_allowed db claims id hg] at h
      have h1 := congrArg Prod.fst h
      simp only at h1
      rcases hf : (UsersServer.findUserByProvidedID db id).1 with e | usr
      · rw [hf] at h1
        cases h1
      · rw [hf] at h1
        simp only [Except.map] at h1
        injection h1 with h1
        obtain ⟨r, hr, hu⟩ := findUser_ok db id usr hf
        subst h1 hu
        exact ⟨rfl, r, hr, (resolveRow_mem _ _ _ hr).1, rfl, rfl, rfl, rfl, rfl, rfl⟩
  · intro us d h
    exact List_password env db claims lreq us (by rw [h])
  · intro us d h
    exact ListDefault_password env db claims lreq us (by rw [h])

/-- Witness for C7: registering carol, carol and bob reading their accounts, and both paths of
`List`. -/
theorem password_never_returned_witness :
    ((UsersServer.Create sampleEnv (storeOf [bob]) "3" ⟨"carol", "c@x.com", "Passw0rd"⟩).1 =
        .ok { Id := "3", Name := "carol", Email := "c@x.com", Password := "",
              Stats := some { Games := 0, Wins := 0, Top5 := 0, Kills := 0 },
              Coins := 0, Gems := 0 } ∧
      ∃ r, (UsersServer.Create sampleEnv (storeOf [bob]) "3"
          ⟨"carol", "c@x.com", "Passw0rd"⟩).2.rows = [bob] ++ [r] ∧
        r.orm.Password = "sha256:Passw0rd") ∧
    (∃ r, resolveRow [bob, carol] "carol" = some r ∧
      (UsersServer.Read (storeOf [bob, carol]) (claimsOf "3" "carol" "c@x.com" false)
        "carol").1 = .ok { r.orm.ToPB with Password := "", Stats := none }) ∧
    (∀ u ∈ [{ bob.orm.ToPB with Password := "" }, { alice.orm.ToPB with Password := "" }],
      u.Password = "") ∧
    (∀ u ∈ [({ Id := "", Name := "bob", Email := "", Password := "",
               Stats := some { Games := 0, Wins := 0, Top5 := 0, Kills := 0 },
               Coins := 0, Gems := 0 } : User)], u.Password = "") :=
  ⟨by
      have h := (password_never_returned sampleEnv (storeOf [bob])
        (claimsOf "1" "bob" "b@x.com" false) "3" ⟨"carol", "c@x.com", "Passw0rd"⟩ "bob"
        ⟨none, ""⟩).1 _ _ rfl
      obtain ⟨_, _, _, _, _, _, r, hr, hp, _⟩ := h
      exact ⟨rfl, r, hr, hp⟩,
    by
      have h := (password_never_returned sampleEnv (storeOf [bob, carol])
        (claimsOf "3" "carol" "c@x.com" false) "3" ⟨"carol", "c@x.com", "Passw0rd"⟩ "carol"
        ⟨none, ""⟩).2.1 _ _ rfl
      obtain ⟨_, r, hr, _, hu, _⟩ := h
      exact ⟨r, hr, congrArg Except.ok hu⟩,
    (password_never_returned sampleEnv (storeOf [bob, alice])
      (claimsOf "2" "alice" "a@x.com" true) "3" ⟨"carol", "c@x.com", "Passw0rd"⟩ "bob"
      ⟨none, ""⟩).2.2.1 _ _ rfl,
    (password_never_returned sampleEnv (storeOf [bob])
      (claimsOf "1" "bob" "b@x.com" false) "3" ⟨"carol", "c@x.com", "Passw0rd"⟩ "bob"
      ⟨some "Wins", ""⟩).2.2.1 _ _ rfl⟩

/-! ## GrantCurrencies -/

/-- At every width the largest balance plus one wraps to the least one. -/
theorem goAdd_overflow (bits : Nat) (hb : 0 < bits) :
    goAdd bits (2 ^ (bits - 1) - 1) 1 = -(2 ^ (bits - 1)) := by
  unfold goAdd wrapInt
  have hp : (2 : Int) ^ bits = 2 ^ (bits - 1) + 2 ^ (bits - 1) := by
    obtain ⟨k, rfl⟩ : ∃ k, bits = k + 1 := ⟨bits - 1, by omega⟩
    simp only [Nat.add_sub_cancel]
    rw [pow_succ]
    ring
  have h1 : (2 : Int) ^ (bits - 1) - 1 + 1 + 2 ^ (bits - 1) = 2 ^ bits := by
    rw [hp]
    ring
  rw [h1, Int.emod_self]
  ring

theorem Step_lookup_cons (env : Env) (req : GrantCurrenciesRequest) (c : Column)
    (rest : List Column) (db : DB) :
    GrantCurrenciesStep env req (.lookup (c :: rest)) db =
      match (db.First c req.Id).1 with
      | .error .ErrRecordNotFound => (.lookup rest, db.record (Query.first c req.Id))
      | .error .other =>
        (.returned (.error ⟨Code.Internal, "Could not find user"⟩),
          db.record (Query.first c req.Id))
      | .ok u => (.update u.ToPB, db.record (Query.first c req.Id)) := by
  have h2 := First_snd db c req.Id
  rw [GrantCurrenciesStep]
  generalize db.First c req.Id = p at h2 ⊢
  obtain ⟨r, d⟩ := p
  simp only at h2
  subst h2
  cases r with
  | error e => cases e <;> rfl
  | ok u => rfl

theorem Step_update (env : Env) (req : GrantCurrenciesRequest) (usr : User) (db : DB) :
    GrantCurrenciesStep env req (.update usr) db =
      match db.Updates usr.Id (goAdd env.intBits usr.Coins req.AddCoins)
          (goAdd env.intBits usr.Gems req.AddGems) with
      | (some _, db2) =>
        (.returned (.error ⟨Code.Internal, "Unable to grant currencies"⟩), db2)
      | (none, db2) => (.returned (.ok ()), db2) := by
  rw [GrantCurrenciesStep]

theorem Run_returned (env : Env) (req : GrantCurrenciesRequest) (n : Nat)
    (reply : Except Status Unit) (db : DB) :
    GrantCurrenciesRun env req n (.returned reply) db = (.returned reply, db) := by
  induction n with
  | zero => rfl
  | succ n ih =>
    rw [GrantCurrenciesRun, GrantCurrenciesStep]
    exact ih

theorem Run_update (env : Env) (req : GrantCurrenciesRequest) (n : Nat) (usr : User) (db : DB) :
    GrantCurrenciesRun env req (n + 1) (.update usr) db =
      match db.Updates usr.Id (goAdd env.intBits usr.Coins req.AddCoins)
          (goAdd env.intBits usr.Gems req.AddGems) with
      | (some _, db2) =>
        (.returned (.error ⟨Code.Internal, "Unable to grant currencies"⟩), db2)
      | (none, db2) => (.returned (.ok ()), db2) := by
  rw [GrantCurrenciesRun, Step_update]
  generalize db.Updates usr.Id (goAdd env.intBits usr.Coins req.AddCoins)
    (goAdd env.intBits usr.Gems req.AddGems) = p
  obtain ⟨r, d⟩ := p
  cases r <;> exact Run_returned env req n _ d

/-- The step-by-step run of one call, left alone for four steps or more, is the handler: same
reply, same store. -/
theorem GrantCurrenciesRun_eq (env : Env) (req : GrantCurrenciesRequest) (db : DB) (n : Nat) :
    GrantCurrenciesRun env req (n + 4) (.lookup searchCriterias) db =
      (.returned (UsersServer.GrantCurrencies env db req).1,
        (UsersServer.GrantCurrencies env db req).2) := by
  unfold UsersServer.GrantCurrencies UsersServer.findUserByProvidedID searchCriterias
  rw [GrantCurrenciesRun, Step_lookup_cons, findUserLoop_cons]
  have hupd : ∀ (k : Nat) (usr : User) (d : DB),
      GrantCurrenciesRun env req (k + 1) (.update usr) d =
        (.returned
          (match d.Updates usr.Id (goAdd env.intBits usr.Coins req.AddCoins)
              (goAdd env.intBits usr.Gems req.AddGems) with
            | (some _, db2) =>
              ((.error ⟨Code.Internal, "Unable to grant currencies"⟩ : Except Status Unit), db2)
            | (none, db2) => (.ok (), db2)).1,
          (match d.Updates usr.Id (goAdd env.intBits usr.Coins req.AddCoins)
              (goAdd env.intBits usr.Gems req.AddGems) with
            | (some _, db2) =>
              ((.error ⟨Code.Internal, "Unable to grant currencies"⟩ : Except Status Unit), db2)
            | (none, db2) => (.ok (), db2)).2) := by
    intro k usr d
    rw [Run_update]
    generalize d.Updates usr.Id (goAdd env.intBits usr.Coins req.AddCoins)
      (goAdd env.intBits usr.Gems req.AddGems) = p
    obtain ⟨r, d2⟩ := p
    cases r <;> rfl
  rcases h1 : (db.First Column.id req.Id).1 with e1 | u1
  · cases e1
    · simp only []
      rw [GrantCurrenciesRun, Step_lookup_cons, findUserLoop_cons]
      rcases h2 : ((db.record (Query.first Column.id req.Id)).First Column.name req.Id).1
        with e2 | u2
      · cases e2
        · simp only []
          rw [GrantCurrenciesRun, Step_lookup_cons, findUserLoop_cons]
          rcases h3 : (((db.record (Query.first Column.id req.Id)).record
              (Query.first Column.name req.Id)).First Column.email req.Id).1 with e3 | u3
          · cases e3
            · simp only [findUserLoop]
              rw [GrantCurrenciesRun, GrantCurrenciesStep]
              exact Run_returned env req n _ _
            · simp only []
              rw [Run_returned]
          · simp only []
            exact hupd n _ _
        · simp only []
          rw [Run_returned]
      · simp only []
        exact hupd (n + 1) _ _
    · simp only []
      rw [Run_returned]
  · simp only []
    exact hupd (n + 2) _ _

theorem Run_add (env : Env) (req : GrantCurrenciesRequest) (n k : Nat) (pc : GrantPC)
    (db : DB) :
    GrantCurrenciesRun env req (n + k) pc db =
      GrantCurrenciesRun env req n (GrantCurrenciesRun env req k pc db).1
        (GrantCurrenciesRun env req k pc db).2 := by
  induction k generalizing pc db with
  | zero => rfl
  | succ k ih =>
    show GrantCurrenciesRun env req ((n + k) + 1) pc db = _
    rw [GrantCurrenciesRun, GrantCurrenciesRun]
    exact ih _ _

/-- Once a call has returned, further steps change nothing. -/
theorem Run_stable (env : Env) (req : GrantCurrenciesRequest) (n k : Nat) (pc : GrantPC)
    (db : DB) (reply : Except Status Unit)
    (h : (GrantCurrenciesRun env req k pc db).1 = .returned reply) :
    GrantCurrenciesRun env req (n + k) pc db = GrantCurrenciesRun env req k pc db := by
  rw [Run_add, h, Run_returned]
  exact Prod.ext h.symm rfl

theorem Interleaved_append (env : Env) (reqA reqB : GrantCurrenciesRequest)
    (s1 s2 : List Bool) (st : GrantPC × GrantPC × DB) :
    GrantCurrenciesInterleaved env reqA reqB (s1 ++ s2) st =
      GrantCurrenciesInterleaved env reqA reqB s2
        (GrantCurrenciesInterleaved env reqA reqB s1 st) := by
  induction s1 generalizing st with
  | nil => rfl
  | cons b s1 ih =>
    obtain ⟨pcA, pcB, db⟩ := st
    cases b
    · rw [List.cons_append, GrantCurrenciesInterleaved, GrantCurrenciesInterleaved]
      exact ih _
    · rw [List.cons_append, GrantCurrenciesInterleaved, GrantCurrenciesInterleaved]
      exact ih _

/-- A schedule that lets only the first call step runs that call alone. -/
theorem Interleaved_replicate_true (env : Env) (reqA reqB : GrantCurrenciesRequest) (k : Nat)
    (pcA pcB : GrantPC) (db : DB) :
    GrantCurrenciesInterleaved env reqA reqB (List.replicate k true) (pcA, pcB, db) =
      ((GrantCurrenciesRun env reqA k pcA db).1, pcB,
        (GrantCurrenciesRun env reqA k pcA db).2) := by
  induction k generalizing pcA db with
  | zero => rfl
  | succ k ih =>
    rw [List.replicate_succ, GrantCurrenciesInterleaved, GrantCurrenciesRun]
    exact ih _ _

/-- A schedule that lets only the second call step runs that call alone. -/
theorem Interleaved_replicate_false (env : Env) (reqA reqB : GrantCurrenciesRequest) (k : Nat)
    (pcA pcB : GrantPC) (db : DB) :
    GrantCurrenciesInterleaved env reqA reqB (List.replicate k false) (pcA, pcB, db) =
      (pcA, (GrantCurrenciesRun env reqB k pcB db).1,
        (GrantCurrenciesRun env reqB k pcB db).2) := by
  induction k generalizing pcB db with
  | zero => rfl
  | succ k ih =>
    rw [List.replicate_succ, GrantCurrenciesInterleaved, GrantCurrenciesRun]
    exact ih _ _

/-- Counterexample to C9: with bob at (10, 10), the calls (+5, +0) and (+0, +3) for id 1, and
the schedule in which both calls look the account up before either updates it, both calls return
success and the balances end at (10, 13): the grant of 5 coins is lost.  So not every interleaving
ends at (15, 13). -/
theorem GrantCurrencies_interleaved_lost_update :
    (GrantCurrenciesInterleaved sampleEnv ⟨"1", 5, 0⟩ ⟨"1", 0, 3⟩ [true, false, true, false]
        (.lookup searchCriterias, .lookup searchCriterias, storeOf [bob])).1 =
      .returned (.ok ()) ∧
    (GrantCurrenciesInterleaved sampleEnv ⟨"1", 5, 0⟩ ⟨"1", 0, 3⟩ [true, false, true, false]
        (.lookup searchCriterias, .lookup searchCriterias, storeOf [bob])).2.1 =
      .returned (.ok ()) ∧
    balancesOf
        (GrantCurrenciesInterleaved sampleEnv ⟨"1", 5, 0⟩ ⟨"1", 0, 3⟩ [true, false, true, false]
          (.lookup searchCriterias, .lookup searchCriterias, storeOf [bob])).2.2 "1" =
      [(10, 13)] ∧
    ¬(∀ sched : List Bool,
      (GrantCurrenciesInterleaved sampleEnv ⟨"1", 5, 0⟩ ⟨"1", 0, 3⟩ sched
          (.lookup searchCriterias, .lookup searchCriterias, storeOf [bob])).1 =
        .returned (.ok ()) →
      (GrantCurrenciesInterleaved sampleEnv ⟨"1", 5, 0⟩ ⟨"1", 0, 3⟩ sched
          (.lookup searchCriterias, .lookup searchCriterias, storeOf [bob])).2.1 =
        .returned (.ok ()) →
      balancesOf
          (GrantCurrenciesInterleaved sampleEnv ⟨"1", 5, 0⟩ ⟨"1", 0, 3⟩ sched
            (.lookup searchCriterias, .lookup searchCriterias, storeOf [bob])).2.2 "1" =
        [(15, 13)]) := by
  refine ⟨rfl, rfl, by decide, ?_⟩
  intro h
  have h1 := h [true, false, true, false] rfl rfl
  revert h1
  decide

/-- C9, amended. Grants that do not overlap lose no update: with bob at (10, 10) and the calls
(+5, +0) and (+0, +3) for id 1, every schedule that lets one call make all its store accesses
before the other makes its first ends with both calls returned successfully and the balances at
(15, 13), in either order; the same holds for the handler applied twice in a row. -/
theorem GrantCurrencies_sequential_no_lost_update (n m : Nat) :
    ((GrantCurrenciesInterleaved sampleEnv ⟨"1", 5, 0⟩ ⟨"1", 0, 3⟩
          (List.replicate (n + 2) true ++ List.replicate (m + 2) false)
          (.lookup searchCriterias, .lookup searchCriterias, storeOf [bob])).1 =
        .returned (.ok ()) ∧
      (GrantCurrenciesInterleaved sampleEnv ⟨"1", 5, 0⟩ ⟨"1", 0, 3⟩
          (List.replicate (n + 2) true ++ List.replicate (m + 2) false)
          (.lookup searchCriterias, .lookup searchCriterias, storeOf [bob])).2.1 =
        .returned (.ok ()) ∧
      balancesOf
          (GrantCurrenciesInterleaved sampleEnv ⟨"1", 5, 0⟩ ⟨"1", 0, 3⟩
            (List.replicate (n + 2) true ++ List.replicate (m + 2) false)
            (.lookup searchCriterias, .lookup searchCriterias, storeOf [bob])).2.2 "1" =
        [(15, 13)]) ∧
    ((GrantCurrenciesInterleaved sampleEnv ⟨"1", 5, 0⟩ ⟨"1", 0, 3⟩
          (List.replicate (m + 2) false ++ List.replicate (n + 2) true)
          (.lookup searchCriterias, .lookup searchCriterias, storeOf [bob])).1 =
        .returned (.ok ()) ∧
      (GrantCurrenciesInterleaved sampleEnv ⟨"1", 5, 0⟩ ⟨"1", 0, 3⟩
          (List.replicate (m + 2) false ++ List.replicate (n + 2) true)
          (.lookup searchCriterias, .lookup searchCriterias, storeOf [bob])).2.1 =
        .returned (.ok ()) ∧
      balancesOf
          (GrantCurrenciesInterleaved sampleEnv ⟨"1", 5, 0⟩ ⟨"1", 0, 3⟩
            (List.replicate (m + 2) false ++ List.replicate (n + 2) true)
            (.lookup searchCriterias, .lookup searchCriterias, storeOf [bob])).2.2 "1" =
        [(15, 13)]) ∧
    (balancesOf
        (UsersServer.GrantCurrencies sampleEnv
          (UsersServer.GrantCurrencies sampleEnv (storeOf [bob]) ⟨"1", 5, 0⟩).2
          ⟨"1", 0, 3⟩).2 "1" = [(15, 13)] ∧
      balancesOf
        (UsersServer.GrantCurrencies sampleEnv
          (UsersServer.GrantCurrencies sampleEnv (storeOf [bob]) ⟨"1", 0, 3⟩).2
          ⟨"1", 5, 0⟩).2 "1" = [(15, 13)]) := by
  have hA : ∀ k, GrantCurrenciesRun sampleEnv ⟨"1", 5, 0⟩ (k + 2) (.lookup searchCriterias)
      (storeOf [bob]) =
      GrantCurrenciesRun sampleEnv ⟨"1", 5, 0⟩ 2 (.lookup searchCriterias) (storeOf [bob]) :=
    fun k => Run_stable _ _ k 2 _ _ (.ok ()) rfl
  have hB : ∀ k, GrantCurrenciesRun sampleEnv ⟨"1", 0, 3⟩ (k + 2) (.lookup searchCriterias)
      (storeOf [bob]) =
      GrantCurrenciesRun sampleEnv ⟨"1", 0, 3⟩ 2 (.lookup searchCriterias) (storeOf [bob]) :=
    fun k => Run_stable _ _ k 2 _ _ (.ok ()) rfl
  have hAB : ∀ k, GrantCurrenciesRun sampleEnv ⟨"1", 0, 3⟩ (k + 2) (.lookup searchCriterias)
      (GrantCurrenciesRun sampleEnv ⟨"1", 5, 0⟩ 2 (.lookup searchCriterias) (storeOf [bob])).2 =
      GrantCurrenciesRun sampleEnv ⟨"1", 0, 3⟩ 2 (.lookup searchCriterias)
        (GrantCurrenciesRun sampleEnv ⟨"1", 5, 0⟩ 2 (.lookup searchCriterias)
          (storeOf [bob])).2 :=
    fun k => Run_stable _ _ k 2 _ _ (.ok ()) rfl
  have hBA : ∀ k, GrantCurrenciesRun sampleEnv ⟨"1", 5, 0⟩ (k + 2) (.lookup searchCriterias)
      (GrantCurrenciesRun sampleEnv ⟨"1", 0, 3⟩ 2 (.lookup searchCriterias) (storeOf [bob])).2 =
      GrantCurrenciesRun sampleEnv ⟨"1", 5, 0⟩ 2 (.lookup searchCriterias)
        (GrantCurrenciesRun sampleEnv ⟨"1", 0, 3⟩ 2 (.lookup searchCriterias)
          (storeOf [bob])).2 :=
    fun k => Run_stable _ _ k 2 _ _ (.ok ()) rfl
  refine ⟨?_, ?_, by decide, by decide⟩
  · rw [Interleaved_append, Interleaved_replicate_true, Interleaved_replicate_false, hA, hAB]
    exact ⟨rfl, rfl, by decide⟩
  · rw [Interleaved_append, Interleaved_replicate_false, Interleaved_replicate_true, hB, hBA]
    exact ⟨rfl, rfl, by decide⟩

/-! ## The claims issued by `Login` -/

theorem unixSeconds_add_eightHours (t : Int) :
    unixSeconds (t + eightHours) = unixSeconds t + 28800 := by
  unfold unixSeconds eightHours
  have h : (8 * 3600 * 1000000000 : Int) = 28800 * 1000000000 := by norm_num
  rw [h, Int.add_mul_ediv_right _ _ (by norm_num)]

/-- What the claims literal of `Login` holds: the identity of the resolved account, the admin
flag passed in, the fixed issuer, an audience other than svc, and an expiration that is 28800
seconds after the second in which the first clock reading falls; it is 28800 seconds after the
issued-at timestamp exactly when the first two clock readings fall in the same second. -/
theorem loginClaims_fields (usr : User) (isAdmin : Bool) (tokenID : String)
    (now1 now2 now3 : Int) :
    (loginClaims usr isAdmin (now1 + eightHours) tokenID now2 now3).UserId = usr.Id ∧
    (loginClaims usr isAdmin (now1 + eightHours) tokenID now2 now3).UserName = usr.Name ∧
    (loginClaims usr isAdmin (now1 + eightHours) tokenID now2 now3).UserEmail = usr.Email ∧
    (loginClaims usr isAdmin (now1 + eightHours) tokenID now2 now3).IsAdmin = isAdmin ∧
    (loginClaims usr isAdmin (now1 + eightHours) tokenID now2 now3).StandardClaims.Issuer =
      "users-service" ∧
    (loginClaims usr isAdmin (now1 + eightHours) tokenID now2 now3).StandardClaims.Audience ≠
      "svc" ∧
    (loginClaims usr isAdmin (now1 + eightHours) tokenID now2 now3).StandardClaims.ExpiresAt =
      unixSeconds now1 + 28800 ∧
    (loginClaims usr isAdmin (now1 + eightHours) tokenID now2 now3).StandardClaims.IssuedAt =
      unixSeconds now2 ∧
    ((loginClaims usr isAdmin (now1 + eightHours) tokenID now2 now3).StandardClaims.ExpiresAt -
        (loginClaims usr isAdmin (now1 + eightHours) tokenID now2 now3).StandardClaims.IssuedAt =
        28800 ↔
      unixSeconds now1 = unixSeconds now2) := by
  have haud : ("medieval" : String) ≠ "svc" := by decide
  refine ⟨rfl, rfl, rfl, rfl, rfl, haud, unixSeconds_add_eightHours now1, rfl, ?_⟩
  show unixSeconds (now1 + eightHours) - unixSeconds now2 = 28800 ↔ _
  rw [unixSeconds_add_eightHours]
  constructor <;> intro h <;> omega

theorem TimestampProto_seconds (t : Int) (ts : Timestamp) (h : TimestampProto t = some ts) :
    ts.Seconds = unixSeconds t := by
  unfold TimestampProto at h
  split at h
  · cases h
  · injection h with h
    rw [← h]

theorem LoginIssue_fst (env : Env) (db : DB) (tokenID : String) (now1 now2 now3 : Int)
    (usr : User) :
    (UsersServer.LoginIssue env db tokenID now1 now2 now3 usr).1 =
      match (db.QueryRowAdmin usr.Id).1 with
      | .error _ => .error errUnableToLogin
      | .ok isAdmin =>
        match env.SignedString
            (loginClaims usr isAdmin (now1 + eightHours) tokenID now2 now3) with
        | none => .error errUnableToLogin
        | some tokenString =>
          match TimestampProto (now1 + eightHours) with
          | none => .error errUnableToLogin
          | some expiresAtPb =>
            .ok { Token := tokenString, ExpiresAt := expiresAtPb, IsAdmin := isAdmin,
                  UserId := usr.Id } := by
  unfold UsersServer.LoginIssue
  generalize db.QueryRowAdmin usr.Id = q
  obtain ⟨ra, d2⟩ := q
  cases ra with
  | error e => rfl
  | ok isAdmin =>
    simp only []
    cases env.SignedString (loginClaims usr isAdmin (now1 + eightHours) tokenID now2 now3) with
    | none => rfl
    | some tok =>
      simp only []
      cases TimestampProto (now1 + eightHours) <;> rfl

/-- A successful `Login` resolved the account, read its admin flag from the store, signed the
claims literal built from them and from the three clock readings, and returns the expiration
second that is in the claims. -/
theorem Login_ok_claims (env : Env) (db : DB) (tokenID : String) (now1 now2 now3 : Int)
    (req : LoginRequest) (resp : LoginResponse)
    (h : (UsersServer.Login env db tokenID now1 now2 now3 req).1 = .ok resp) :
    ∃ usr isAdmin,
      (UsersServer.findUserByProvidedID db req.Id).1 = .ok usr ∧
      usr.Password = env.sha256Hex req.Password ∧
      ((UsersServer.findUserByProvidedID db req.Id).2.QueryRowAdmin usr.Id).1 = .ok isAdmin ∧
      env.SignedString (loginClaims usr isAdmin (now1 + eightHours) tokenID now2 now3) =
        some resp.Token ∧
      resp.ExpiresAt.Seconds =
        (loginClaims usr isAdmin (now1 + eightHours) tokenID now2 now3).StandardClaims.ExpiresAt ∧
      resp.IsAdmin = isAdmin ∧ resp.UserId = usr.Id := by
  unfold UsersServer.Login at h
  generalize UsersServer.findUserByProvidedID db req.Id = p at h ⊢
  obtain ⟨r, d⟩ := p
  cases r with
  | error e => cases h
  | ok usr =>
    simp only [] at h
    by_cases hp : usr.Password = env.sha256Hex req.Password
    · rw [if_neg (by simp [hp]), LoginIssue_fst] at h
      rcases hq : (d.QueryRowAdmin usr.Id).1 with e | isAdmin
      · rw [hq] at h
        cases h
      · rw [hq] at h
        simp only [] at h
        cases hs : env.SignedString
            (loginClaims usr isAdmin (now1 + eightHours) tokenID now2 now3) with
        | none => rw [hs] at h; cases h
        | some tok =>
          rw [hs] at h
          simp only [] at h
          cases ht : TimestampProto (now1 + eightHours) with
          | none => rw [ht] at h; cases h
          | some ts =>
            rw [ht] at h
            simp only [] at h
            injection h with h
            subst h
            exact ⟨usr, isAdmin, rfl, hp, hq, hs, TimestampProto_seconds _ _ ht, rfl, rfl⟩
    · rw [if_pos (by simpa using hp)] at h
      cases h

/-- Evaluation for C10: bob logs in while the clock passes a second boundary between the first
reading (0.999999999 s) and the second (1.000000000 s).  The claims handed to the signer expire
at second 28800 and are issued at second 1: the expiration is 28799 seconds, not 28800, after
the issued-at timestamp. -/
theorem Login_expiry_not_eight_hours_after_issue (sign : GameClaims → Option String) :
    (UsersServer.Login { sampleEnv with SignedString := sign } (storeOf [bob]) "jti"
        999999999 1000000000 1000000000 ⟨"bob", "Passw0rd"⟩).1 =
      (match sign
          { UserId := "1", UserName := "bob", UserEmail := "b@x.com", IsAdmin := false,
            StandardClaims :=
              { Audience := "medieval", ExpiresAt := 28800, Id := "jti", IssuedAt := 1,
                Issuer := "users-service", NotBefore := 1 } } with
        | none => .error ⟨Code.Internal, "Unable to login"⟩
        | some tokenString =>
          .ok { Token := tokenString, ExpiresAt := { Seconds := 28800, Nanos := 999999999 },
                IsAdmin := false, UserId := "1" }) ∧
    (loginClaims bob.orm.ToPB false (999999999 + eightHours) "jti" 1000000000
        1000000000).StandardClaims.ExpiresAt -
      (loginClaims bob.orm.ToPB false (999999999 + eightHours) "jti" 1000000000
        1000000000).StandardClaims.IssuedAt = 28799 := by
  refine ⟨?_, by decide⟩
  have hL : UsersServer.Login { sampleEnv with SignedString := sign } (storeOf [bob]) "jti"
      999999999 1000000000 1000000000 ⟨"bob", "Passw0rd"⟩ =
      UsersServer.LoginIssue { sampleEnv with SignedString := sign }
        (UsersServer.findUserByProvidedID (storeOf [bob]) "bob").2 "jti"
        999999999 1000000000 1000000000 bob.orm.ToPB := rfl
  rw [hL, LoginIssue_fst]
  rfl

end Svc
